import Mathlib

/-!
Verification of the discrete event surgery simulation
(src/SimPy/surgery/surgery_sim.py).

The embedding follows the source: the simpy environment is a clock plus a
list of pending events ordered by due time, priority and serial event id;
each resource pool is a capacity limited server with a FIFO put queue whose
request and release operations are wrapped by MonitoredResource to append a
queue length sample; the two generator processes (generate_patients and
process_patient with do_service inlined) are compiled to explicit state
machines driven by the event actions.  Simulated time is a variable of an
arbitrary linearly ordered additive group K (the program computes with real
valued times; only addition, zero and order are used).  The results of
random.uniform and random.expovariate are modelled as an oracle stream of
values consumed one by one in execution order; nonnegativity of those
results is the hypothesis StreamNonneg.
-/

namespace SurgerySim

section Model

variable {K : Type} [LinearOrderedAddCommGroup K]

/-- Stage names, the four keys of the teams dictionary of SurgerySimulation. -/
inductive Stage
  | registration
  | triage
  | ed
  | acu
deriving DecidableEq

/-- The DataPoint namedtuple recorded by MonitoredResource: a timestamp and the
queue length at that moment. -/
structure DataPoint (K : Type) where
  timestamp : K
  q_len : Nat
deriving DecidableEq

/-- State of one MonitoredResource: the capacity, the put queue of waiting
requests, the list of admitted requests (users), and the stats samples.  A
request is identified by the id of the requesting patient (each patient has at
most one outstanding request per pool).  The fields reqLog, grantLog and
releaseLog are pure observations recording the order in which requests were
issued, admitted and released; they influence no behaviour. -/
structure PoolState (K : Type) where
  capacity : Nat
  queue : List Nat
  users : List Nat
  stats : List (DataPoint K)
  reqLog : List Nat
  grantLog : List Nat
  releaseLog : List Nat
deriving DecidableEq

/-- Program counter of one patient process, process_patient with do_service
inlined.  The stage index i ranges over 0, 1, 2 for registration, triage and
the treatment branch. -/
inductive PC
  | pendingInit
  | waitingGrant (i : Nat)
  | inService (i : Nat)
  | done
deriving DecidableEq

/-- The timestamps dictionary of a patient: one optional field per fixed key,
a key being absent in the dictionary corresponds to the field being none. -/
structure Timestamps (K : Type) where
  registration_entry : Option K := none
  registration_start : Option K := none
  registration_exit : Option K := none
  triage_entry : Option K := none
  triage_start : Option K := none
  triage_exit : Option K := none
  ed_entry : Option K := none
  ed_start : Option K := none
  ed_exit : Option K := none
  acu_entry : Option K := none
  acu_start : Option K := none
  acu_exit : Option K := none
  exit : Option K := none
deriving DecidableEq

/-- A patient: id, branch choice made once at creation, and the timestamps
dictionary.  createdAt observes env.now at the moment of creation and pc the
progress of the patient process; both are bookkeeping, not program data that
any branch reads. -/
structure Patient (K : Type) where
  id : Nat
  is_for_ed : Bool
  createdAt : K
  timestamps : Timestamps K
  pc : PC
deriving DecidableEq

instance : Inhabited (Patient K) := ⟨⟨0, false, 0, {}, PC.pendingInit⟩⟩

/-- Actions of pending events: resumption of the patient generator, the
initialization event of a patient process, a granted request resuming its
patient, a service timeout resuming its patient, and the processing of a
release event (whose callback triggers the put queue of the pool). -/
inductive Act
  | genArrive
  | patInit (pid : Nat)
  | grant (pid : Nat)
  | svcTimeout (pid : Nat)
  | releasePop (st : Stage)
deriving DecidableEq

/-- A scheduled simpy event: absolute due time, priority (0 urgent, 1 normal)
and serial event id assigned at scheduling time. -/
structure Event (K : Type) where
  time : K
  prio : Nat
  eid : Nat
  act : Act
deriving DecidableEq

/-- Order of the simpy event queue: lexicographic on due time, priority and
event id. -/
def evLE (a b : Event K) : Prop :=
  a.time < b.time ∨
    (a.time = b.time ∧ (a.prio < b.prio ∨ (a.prio = b.prio ∧ a.eid ≤ b.eid)))

instance : DecidableRel (@evLE K _) := fun a b => by
  unfold evLE; infer_instance

instance : IsTotal (Event K) evLE := ⟨by
  intro a b
  unfold evLE
  rcases lt_trichotomy a.time b.time with h | h | h
  · exact Or.inl (Or.inl h)
  · rcases Nat.lt_trichotomy a.prio b.prio with h2 | h2 | h2
    · exact Or.inl (Or.inr ⟨h, Or.inl h2⟩)
    · rcases Nat.le_total a.eid b.eid with h3 | h3
      · exact Or.inl (Or.inr ⟨h, Or.inr ⟨h2, h3⟩⟩)
      · exact Or.inr (Or.inr ⟨h.symm, Or.inr ⟨h2.symm, h3⟩⟩)
    · exact Or.inr (Or.inr ⟨h.symm, Or.inl h2⟩)
  · exact Or.inr (Or.inl h)⟩

instance : IsTrans (Event K) evLE := ⟨by
  intro a b c hab hbc
  unfold evLE at *
  rcases hab with h | ⟨he, h2⟩
  · rcases hbc with h' | ⟨he', _⟩
    · exact Or.inl (h.trans h')
    · exact Or.inl (he' ▸ h)
  · rcases hbc with h' | ⟨he', h2'⟩
    · exact Or.inl (he ▸ h')
    · refine Or.inr ⟨he.trans he', ?_⟩
      rcases h2 with h2 | ⟨hp, hi⟩
      · rcases h2' with h2' | ⟨hp', _⟩
        · exact Or.inl (h2.trans h2')
        · exact Or.inl (hp' ▸ h2)
      · rcases h2' with h2' | ⟨hp', hi'⟩
        · exact Or.inl (hp ▸ h2')
        · exact Or.inr ⟨hp.trans hp', hi.trans hi'⟩⟩

/-- The configuration values consumed by the simulation, the attributes of
SimulationConfig. -/
structure SimulationConfig (K : Type) where
  n_receptionists : Nat
  n_nurses : Nat
  n_ed_doctors : Nat
  n_acu_doctors : Nat
  reception_service_mean : K
  triage_service_mean : K
  ed_service_mean : K
  acu_service_mean : K
  patient_inter_arrival_time : K
  patient_p_ed : K
  warm_up_time : K
  simulation_time : K
  n_sims : Nat
deriving DecidableEq

/-- Whole state of one SurgerySimulation run: the environment (clock, pending
events, event id counter), the four team pools, the heap of all created
patients indexed by id, the retained patients list of ids, the patient id
counter, the position reached in the random stream, and two flags observing
the fatal conditions of the error taxonomy of the spec: negDelay becomes true
if an event is ever scheduled before the current clock (a negative delay) and
badRelease becomes true if a release ever names a request that is not
currently admitted. -/
structure SimState (K : Type) where
  now : K
  nextEid : Nat
  events : List (Event K)
  teams : Stage → PoolState K
  allPatients : List (Patient K)
  patients : List Nat
  nextPid : Nat
  rndIdx : Nat
  negDelay : Bool
  badRelease : Bool

def getPool (s : SimState K) (st : Stage) : PoolState K := s.teams st

def setPool (s : SimState K) (st : Stage) (p : PoolState K) : SimState K :=
  { s with teams := Function.update s.teams st p }

def getPatient (s : SimState K) (pid : Nat) : Patient K :=
  s.allPatients.getD pid default

def setPatient (s : SimState K) (pid : Nat) (p : Patient K) : SimState K :=
  { s with allPatients := s.allPatients.set pid p }

/-- MonitoredResource.request up to the append of the request to the put
queue: first the stats sample with the current queue length, taken before
super().request() changes anything, then the simpy Put constructor appends
the request to the put queue. -/
def poolRequest (now : K) (pid : Nat) (p : PoolState K) : PoolState K :=
  { p with stats := p.stats ++ [⟨now, p.queue.length⟩],
           queue := p.queue ++ [pid],
           reqLog := p.reqLog ++ [pid] }

/-- The trigger of the put queue of a simpy resource: attempt the head of the
put queue once and admit it when a capacity slot is free.  Returns the
admitted request id when admission happened; the caller schedules the
corresponding grant event (the succeed of that request event). -/
def triggerPut (p : PoolState K) : PoolState K × Option Nat :=
  match p.queue with
  | [] => (p, none)
  | pid :: rest =>
    if p.users.length < p.capacity then
      ({ p with queue := rest, users := p.users ++ [pid],
                grantLog := p.grantLog ++ [pid] }, some pid)
    else (p, none)

/-- MonitoredResource.release: the stats sample with the current queue length,
taken before super().release() changes anything, then the simpy Release
removes the request from users immediately.  The Bool is false when the
request is not currently admitted (the unpaired release condition, under
which users is left unchanged). -/
def poolRelease (now : K) (pid : Nat) (p : PoolState K) : PoolState K × Bool :=
  let p1 := { p with stats := p.stats ++ [⟨now, p.queue.length⟩] }
  if pid ∈ p1.users then
    ({ p1 with users := p1.users.erase pid,
               releaseLog := p1.releaseLog ++ [pid] }, true)
  else (p1, false)

/-- env.schedule: insert an event at the given absolute time and priority with
the next serial event id.  The negDelay flag observes an attempt to schedule
into the past, which for a timeout corresponds to a negative delay. -/
def schedule (time : K) (prio : Nat) (a : Act) (s : SimState K) : SimState K :=
  { s with events := List.orderedInsert evLE ⟨time, prio, s.nextEid, a⟩ s.events,
           nextEid := s.nextEid + 1,
           negDelay := if time < s.now then true else s.negDelay }

/-- One draw of the global random stream: random.uniform and random.expovariate
are modelled as oracles whose successive results are the values of the stream,
consumed one by one in execution order. -/
def nextDraw (stream : Nat → K) (s : SimState K) : K × SimState K :=
  (stream s.rndIdx, { s with rndIdx := s.rndIdx + 1 })

/-- Stage of the process step with index i for a patient of the given branch:
process_steps = [registration, triage, treatment]. -/
def stageAt (isEd : Bool) : Nat → Stage
  | 0 => Stage.registration
  | 1 => Stage.triage
  | _ => if isEd then Stage.ed else Stage.acu

/-- Write of the entry timestamp of a stage into the dictionary. -/
def Timestamps.setEntry : Stage → K → Timestamps K → Timestamps K
  | Stage.registration, t, ts => { ts with registration_entry := some t }
  | Stage.triage, t, ts => { ts with triage_entry := some t }
  | Stage.ed, t, ts => { ts with ed_entry := some t }
  | Stage.acu, t, ts => { ts with acu_entry := some t }

/-- Write of the start timestamp of a stage into the dictionary. -/
def Timestamps.setStart : Stage → K → Timestamps K → Timestamps K
  | Stage.registration, t, ts => { ts with registration_start := some t }
  | Stage.triage, t, ts => { ts with triage_start := some t }
  | Stage.ed, t, ts => { ts with ed_start := some t }
  | Stage.acu, t, ts => { ts with acu_start := some t }

/-- Write of the exit timestamp of a stage into the dictionary. -/
def Timestamps.setStageExit : Stage → K → Timestamps K → Timestamps K
  | Stage.registration, t, ts => { ts with registration_exit := some t }
  | Stage.triage, t, ts => { ts with triage_exit := some t }
  | Stage.ed, t, ts => { ts with ed_exit := some t }
  | Stage.acu, t, ts => { ts with acu_exit := some t }

/-- Trigger the put queue of the given pool and, when a request was admitted,
schedule the grant event for it at the current time with normal priority. -/
def runTrigger (st : Stage) (s : SimState K) : SimState K :=
  match triggerPut (getPool s st) with
  | (pl, some gpid) => schedule s.now 1 (Act.grant gpid) (setPool s st pl)
  | (pl, none) => setPool s st pl

/-- Start of do_service for stage index i of patient pid: record the entry
timestamp, set the process to wait for the grant, and perform
resource.request(), that is the sample, the enqueue and the put trigger. -/
def beginStage (pid i : Nat) (s : SimState K) : SimState K :=
  let pat := getPatient s pid
  let st := stageAt pat.is_for_ed i
  let pat1 := { pat with timestamps := pat.timestamps.setEntry st s.now,
                         pc := PC.waitingGrant i }
  let s1 := setPatient s pid pat1
  let s2 := setPool s1 st (poolRequest s1.now pid (getPool s1 st))
  runTrigger st s2

/-- Body of the generate_patients loop: create the patient (one uniform draw
compared against p_ed decides the branch), retain it unless the clock is
inside the warm up window, start its process (an initialization event at the
current time with urgent priority), then draw the interarrival delay and
schedule the next resumption of the generator. -/
def execGenArrive (cfg : SimulationConfig K) (stream : Nat → K)
    (s : SimState K) : SimState K :=
  let (u, s1) := nextDraw stream s
  let pid := s1.nextPid
  let pat : Patient K := ⟨pid, decide (u < cfg.patient_p_ed), s1.now, {}, PC.pendingInit⟩
  let s2 := { s1 with allPatients := s1.allPatients ++ [pat], nextPid := pid + 1 }
  let s3 := if s2.now < cfg.warm_up_time then s2
            else { s2 with patients := s2.patients ++ [pid] }
  let s4 := schedule s3.now 0 (Act.patInit pid) s3
  let (d, s5) := nextDraw stream s4
  schedule (s5.now + d) 1 Act.genArrive s5

/-- The initialization event of a patient process: process_patient starts the
first do_service, stage index 0. -/
def execPatInit (pid : Nat) (s : SimState K) : SimState K := beginStage pid 0 s

/-- A granted request resumes its patient inside do_service: record the start
timestamp, draw the service time and schedule the service timeout. -/
def execGrant (stream : Nat → K) (pid : Nat) (s : SimState K) : SimState K :=
  let pat := getPatient s pid
  match pat.pc with
  | PC.waitingGrant i =>
    let st := stageAt pat.is_for_ed i
    let pat1 := { pat with timestamps := pat.timestamps.setStart st s.now,
                           pc := PC.inService i }
    let s1 := setPatient s pid pat1
    let (d, s2) := nextDraw stream s1
    schedule (s2.now + d) 1 (Act.svcTimeout pid) s2
  | _ => s

/-- A service timeout resumes its patient: record the stage exit timestamp,
leave the with block (release: sample, removal of the request from users, and
the release event scheduled at the current time, whose later processing
triggers the put queue), then either start the next stage or, after the
treatment stage, record the final exit timestamp and finish. -/
def execSvcTimeout (pid : Nat) (s : SimState K) : SimState K :=
  let pat := getPatient s pid
  match pat.pc with
  | PC.inService i =>
    let st := stageAt pat.is_for_ed i
    let pat1 := { pat with timestamps := pat.timestamps.setStageExit st s.now }
    let s1 := setPatient s pid pat1
    let (pl, ok) := poolRelease s1.now pid (getPool s1 st)
    let s2 := setPool s1 st pl
    let s3 := if ok then s2 else { s2 with badRelease := true }
    let s4 := schedule s3.now 1 (Act.releasePop st) s3
    if i < 2 then beginStage pid (i + 1) s4
    else
      let pat2 := getPatient s4 pid
      setPatient s4 pid
        { pat2 with timestamps := { pat2.timestamps with exit := some s4.now },
                    pc := PC.done }
  | _ => s

/-- Processing of a release event: its callback triggers the put queue. -/
def execReleasePop (st : Stage) (s : SimState K) : SimState K := runTrigger st s

/-- Dispatch of one event action. -/
def execEvent (cfg : SimulationConfig K) (stream : Nat → K) (e : Event K)
    (s : SimState K) : SimState K :=
  match e.act with
  | Act.genArrive => execGenArrive cfg stream s
  | Act.patInit pid => execPatInit pid s
  | Act.grant pid => execGrant stream pid s
  | Act.svcTimeout pid => execSvcTimeout pid s
  | Act.releasePop st => execReleasePop st s

/-- One scheduler step of env.run with until = warm_up_time + simulation_time:
look at the earliest pending event; stop, returning the state unchanged, when
it is not due before the horizon (or no event is pending); otherwise pop it,
advance the clock to its due time and execute its action. -/
def stepOnce (cfg : SimulationConfig K) (stream : Nat → K)
    (s : SimState K) : SimState K :=
  match s.events with
  | [] => s
  | e :: rest =>
    if cfg.warm_up_time + cfg.simulation_time ≤ e.time then s
    else execEvent cfg stream e { s with events := rest, now := e.time }

/-- Run the scheduler for the given number of steps; the run of the program is
the fixed point reached once the earliest event passes the horizon. -/
def runSim (cfg : SimulationConfig K) (stream : Nat → K) (fuel : Nat)
    (s : SimState K) : SimState K :=
  (stepOnce cfg stream)^[fuel] s

/-- A fresh empty pool of the given capacity. -/
def initPool (cap : Nat) : PoolState K := ⟨cap, [], [], [], [], [], []⟩

/-- Capacity of the pool of each team, from the configuration. -/
def capacityFor (cfg : SimulationConfig K) : Stage → Nat
  | Stage.registration => cfg.n_receptionists
  | Stage.triage => cfg.n_nurses
  | Stage.ed => cfg.n_ed_doctors
  | Stage.acu => cfg.n_acu_doctors

/-- The SurgerySimulation constructor plus the start of run(): a fresh
environment with clock 0, four empty pools with the configured capacities, no
patients, and the initialization event of generate_patients scheduled at time
0 with urgent priority.  rndIdx is the position already reached in the global
random stream, which carries across replications. -/
def initSim (cfg : SimulationConfig K) (rndIdx : Nat) : SimState K :=
  schedule 0 0 Act.genArrive
    { now := 0, nextEid := 0, events := [],
      teams := fun st => initPool (capacityFor cfg st),
      allPatients := [], patients := [], nextPid := 0, rndIdx := rndIdx,
      negDelay := false, badRelease := false }

/-- One row of the persisted patient table, as written by save_patient_stats. -/
structure PatientRow (K : Type) where
  run_id : Nat
  patient_id : Nat
  is_for_ed : Bool
  registration_entry : Option K
  registration_start : Option K
  registration_exit : Option K
  triage_entry : Option K
  triage_start : Option K
  triage_exit : Option K
  ed_entry : Option K
  ed_start : Option K
  ed_exit : Option K
  acu_entry : Option K
  acu_start : Option K
  acu_exit : Option K
  exit : Option K
deriving DecidableEq

/-- The row of one patient: every timestamp read with dict get, so a missing
key yields null. -/
def patientRow (run_id : Nat) (p : Patient K) : PatientRow K :=
  ⟨run_id, p.id, p.is_for_ed,
   p.timestamps.registration_entry, p.timestamps.registration_start,
   p.timestamps.registration_exit,
   p.timestamps.triage_entry, p.timestamps.triage_start, p.timestamps.triage_exit,
   p.timestamps.ed_entry, p.timestamps.ed_start, p.timestamps.ed_exit,
   p.timestamps.acu_entry, p.timestamps.acu_start, p.timestamps.acu_exit,
   p.timestamps.exit⟩

/-- save_patient_stats: one row per patient of the retained list, in order. -/
def savePatientRows (run_id : Nat) (s : SimState K) : List (PatientRow K) :=
  s.patients.map (fun pid => patientRow run_id (getPatient s pid))

/-- One row of the persisted queue length table. -/
structure QueueRow (K : Type) where
  run_id : Nat
  service : Stage
  timestamp : K
  q_len : Nat
deriving DecidableEq

/-- save_queue_lengths: the stats of the four pools, in the insertion order of
the teams dictionary. -/
def saveQueueRows (run_id : Nat) (s : SimState K) : List (QueueRow K) :=
  ([Stage.registration, Stage.triage, Stage.ed, Stage.acu].map (fun st =>
    (getPool s st).stats.map (fun d => QueueRow.mk run_id st d.timestamp d.q_len))).flatten

/-- The accumulated output relations of SimulationDriver plus the position of
the shared random stream. -/
structure DriverState (K : Type) where
  patientTable : List (PatientRow K)
  queueTable : List (QueueRow K)
  rndIdx : Nat

/-- SimulationDriver.run_once: build a fresh simulation, run it, append both
tables to the store. -/
def runOnce (cfg : SimulationConfig K) (stream : Nat → K) (fuel : Nat)
    (run_id : Nat) (d : DriverState K) : DriverState K :=
  let s := runSim cfg stream fuel (initSim cfg d.rndIdx)
  { patientTable := d.patientTable ++ savePatientRows run_id s,
    queueTable := d.queueTable ++ saveQueueRows run_id s,
    rndIdx := s.rndIdx }

/-- SimulationDriver.run: replications 0 .. n_sims - 1 starting from empty
tables, with one random stream continued across replications. -/
def driverRun (cfg : SimulationConfig K) (stream : Nat → K) (fuel : Nat) :
    DriverState K :=
  (List.range cfg.n_sims).foldl (fun d r => runOnce cfg stream fuel r d) ⟨[], [], 0⟩

/-- Nonnegativity of the random draw results: uniform results lie in the unit
interval and exponential results are nonnegative. -/
def StreamNonneg (stream : Nat → K) : Prop := ∀ n, 0 ≤ stream n

/-- The timestamp slots of a dictionary in pipeline order for a given branch
choice: registration, triage, the chosen treatment, final exit. -/
def tsListT (b : Bool) (t : Timestamps K) : List (Option K) :=
  [t.registration_entry, t.registration_start, t.registration_exit,
   t.triage_entry, t.triage_start, t.triage_exit] ++
  (if b then [t.ed_entry, t.ed_start, t.ed_exit]
   else [t.acu_entry, t.acu_start, t.acu_exit]) ++
  [t.exit]

/-- The timestamps of a patient in pipeline order, the treatment slots being
those of the branch chosen at creation. -/
def tsList (pat : Patient K) : List (Option K) :=
  tsListT pat.is_for_ed pat.timestamps

/-- The treatment slots of the branch not chosen. -/
def otherBranchT (b : Bool) (t : Timestamps K) : List (Option K) :=
  if b then [t.acu_entry, t.acu_start, t.acu_exit]
  else [t.ed_entry, t.ed_start, t.ed_exit]

/-- The treatment slots of the branch the patient did not choose. -/
def otherBranch (pat : Patient K) : List (Option K) :=
  otherBranchT pat.is_for_ed pat.timestamps

/-- Number of pending events carrying the given action. -/
def evCnt (s : SimState K) (a : Act) : Nat :=
  s.events.countP (fun e => decide (e.act = a))

/-- Pool invariants: occupancy bounded by capacity; the requests granted so
far followed by the waiting queue are exactly the requests issued, in issue
order (strict FIFO service); every grant is either still held or already
released, with multiplicity; sample timestamps are nondecreasing and bounded
by the clock. -/
structure PoolInv (now : K) (p : PoolState K) : Prop where
  users_le : p.users.length ≤ p.capacity
  fifo : p.reqLog = p.grantLog ++ p.queue
  pairing : p.grantLog.Perm (p.users ++ p.releaseLog)
  stats_sorted : p.stats.Pairwise (fun a b => a.timestamp ≤ b.timestamp)
  stats_le : ∀ d ∈ p.stats, d.timestamp ≤ now

/-- Number of timestamps a patient process has recorded at each program
point of its life cycle. -/
def recCount : PC → Nat
  | PC.pendingInit => 0
  | PC.waitingGrant i => 3 * i + 1
  | PC.inService i => 3 * i + 2
  | PC.done => 10

/-- Shape of the timestamps of a patient: the slots of the branch not chosen
are absent; in pipeline order the recorded slots form a prefix whose values
are nondecreasing and bounded by the clock, and all later slots are absent. -/
structure TsShape (now : K) (pat : Patient K) : Prop where
  other_none : ∀ v ∈ otherBranch pat, v = none
  shape : ∃ l : List K,
    tsList pat = l.map some ++ List.replicate (10 - recCount pat.pc) none ∧
    l.length = recCount pat.pc ∧ l.Pairwise (· ≤ ·) ∧ ∀ v ∈ l, v ≤ now

/-- Shape of the timestamps of a patient with an explicit number of recorded
slots, used while a transition is in flight. -/
def ShapeN (n : Nat) (now : K) (pat : Patient K) : Prop :=
  (∀ v ∈ otherBranch pat, v = none) ∧
  ∃ l : List K,
    tsList pat = l.map some ++ List.replicate (10 - n) none ∧
    l.length = n ∧ l.Pairwise (· ≤ ·) ∧ ∀ v ∈ l, v ≤ now

/-- The patient has no pending event. -/
def noEvs (s : SimState K) (pid : Nat) : Prop :=
  evCnt s (Act.patInit pid) = 0 ∧ evCnt s (Act.grant pid) = 0 ∧
    evCnt s (Act.svcTimeout pid) = 0

/-- The patient occurs in no pool queue and holds no pool slot. -/
def outOfPools (s : SimState K) (pid : Nat) : Prop :=
  ∀ st, (getPool s st).queue.count pid = 0 ∧ (getPool s st).users.count pid = 0

/-- The patient occurs in no pool other than the given one. -/
def outOfPoolsExcept (s : SimState K) (pid : Nat) (st0 : Stage) : Prop :=
  ∀ st, st ≠ st0 →
    (getPool s st).queue.count pid = 0 ∧ (getPool s st).users.count pid = 0

/-- Correlation of the program counter of one patient with the pending events
and the pool contents.  A pending initialization marks a process not yet
started; a patient waiting for a grant is either still queued (no grant event)
or already admitted with its grant event pending; a patient in service holds
its slot with its timeout pending; a finished patient has left every pool. -/
def LocInv (s : SimState K) (pat : Patient K) : Prop :=
  match pat.pc with
  | PC.pendingInit =>
      evCnt s (Act.patInit pat.id) = 1 ∧ evCnt s (Act.grant pat.id) = 0 ∧
      evCnt s (Act.svcTimeout pat.id) = 0 ∧ outOfPools s pat.id
  | PC.waitingGrant i =>
      i ≤ 2 ∧ evCnt s (Act.patInit pat.id) = 0 ∧
      evCnt s (Act.svcTimeout pat.id) = 0 ∧
      outOfPoolsExcept s pat.id (stageAt pat.is_for_ed i) ∧
      (((getPool s (stageAt pat.is_for_ed i)).queue.count pat.id = 1 ∧
        (getPool s (stageAt pat.is_for_ed i)).users.count pat.id = 0 ∧
        evCnt s (Act.grant pat.id) = 0) ∨
       ((getPool s (stageAt pat.is_for_ed i)).queue.count pat.id = 0 ∧
        (getPool s (stageAt pat.is_for_ed i)).users.count pat.id = 1 ∧
        evCnt s (Act.grant pat.id) = 1))
  | PC.inService i =>
      i ≤ 2 ∧ evCnt s (Act.patInit pat.id) = 0 ∧
      evCnt s (Act.grant pat.id) = 0 ∧ evCnt s (Act.svcTimeout pat.id) = 1 ∧
      outOfPoolsExcept s pat.id (stageAt pat.is_for_ed i) ∧
      (getPool s (stageAt pat.is_for_ed i)).queue.count pat.id = 0 ∧
      (getPool s (stageAt pat.is_for_ed i)).users.count pat.id = 1
  | PC.done => noEvs s pat.id ∧ outOfPools s pat.id

/-- All clauses of the master invariant of reachable simulation states,
except that the two life cycle clauses are only required of patients other
than the given one (the patient whose transition is in flight). -/
structure InvExcept (cfg : SimulationConfig K) (s : SimState K) (pid : Nat) :
    Prop where
  ev_sorted : s.events.Sorted evLE
  ev_future : ∀ e ∈ s.events, s.now ≤ e.time
  ev_pid : ∀ e ∈ s.events, ∀ q,
    (e.act = Act.patInit q ∨ e.act = Act.grant q ∨
      e.act = Act.svcTimeout q) → q < s.nextPid
  heap_id : ∀ k, k < s.allPatients.length → (getPatient s k).id = k
  next_pid : s.nextPid = s.allPatients.length
  created_le : ∀ k, k < s.allPatients.length →
    (getPatient s k).createdAt ≤ s.now
  retained : ∀ q, q ∈ s.patients ↔
    (q < s.allPatients.length ∧
      cfg.warm_up_time ≤ (getPatient s q).createdAt)
  pools : ∀ st, PoolInv s.now (getPool s st)
  pool_pid : ∀ st, (∀ q ∈ (getPool s st).queue, q < s.nextPid) ∧
    (∀ q ∈ (getPool s st).users, q < s.nextPid)
  no_neg : s.negDelay = false
  no_bad : s.badRelease = false
  pat_ts : ∀ k, k < s.allPatients.length → k ≠ pid →
    TsShape s.now (getPatient s k)
  pat_loc : ∀ k, k < s.allPatients.length → k ≠ pid →
    LocInv s (getPatient s k)
  pat_nodup : s.patients.Nodup

/-- The master invariant of reachable simulation states: InvExcept for the
patient id that does not exist yet, so the life cycle clauses hold for every
patient. -/
abbrev Inv (cfg : SimulationConfig K) (s : SimState K) : Prop :=
  InvExcept cfg s s.nextPid

/-- A configuration used for concrete executions: every capacity 1, horizon
10, no warm up, probability of the ed branch 1 (in the unit scale of the
uniform oracle). -/
def cCfg : SimulationConfig Int := ⟨1, 1, 1, 1, 1, 1, 1, 1, 1, 1, 0, 10, 1⟩

/-- A concrete draw stream: the uniform draw of the first patient is 0, every
later draw is 100, so exactly one patient is created and its registration
service is still running when the horizon is reached. -/
def cStream : Nat → Int := fun n => if n = 0 then 0 else 100

/-- The final state of the concrete truncated run. -/
def cFinal : SimState Int := runSim cCfg cStream 10 (initSim cCfg 0)

/-- A pool of capacity 1 whose only slot is held by request 7: the next
request has to wait. -/
def busyPool : PoolState Int := ⟨1, [], [7], [], [7], [7], []⟩

/-- A configuration identical to cCfg except for a warm up window of 6 and a
simulated span of 2 beyond it (horizon 8). -/
def wCfg : SimulationConfig Int := ⟨1, 1, 1, 1, 1, 1, 1, 1, 1, 1, 6, 2, 1⟩

/-- A draw stream with every value 7: arrivals every 7 time units, every
service lasting 7, every patient on the acu branch.  The first patient walks
in at time 0, inside the warm up window; the second at time 7, after it. -/
def wStream : Nat → Int := fun _ => 7

/-- The final state of the concrete warm up run. -/
def wFinal : SimState Int := runSim wCfg wStream 16 (initSim wCfg 0)

end Model

section Proofs

set_option linter.unusedSectionVars false

variable {K : Type} [LinearOrderedAddCommGroup K]
variable {cfg : SimulationConfig K} {stream : Nat → K}

lemma evLE_time {a b : Event K} (h : evLE a b) : a.time ≤ b.time := by
  rcases h with h | ⟨h, _⟩
  · exact le_of_lt h
  · exact le_of_eq h

@[simp] lemma schedule_now (t : K) (pr : Nat) (a : Act) (s : SimState K) :
    (schedule t pr a s).now = s.now := rfl

@[simp] lemma schedule_nextPid (t : K) (pr : Nat) (a : Act) (s : SimState K) :
    (schedule t pr a s).nextPid = s.nextPid := rfl

@[simp] lemma schedule_allPatients (t : K) (pr : Nat) (a : Act)
    (s : SimState K) : (schedule t pr a s).allPatients = s.allPatients := rfl

@[simp] lemma schedule_patients (t : K) (pr : Nat) (a : Act) (s : SimState K) :
    (schedule t pr a s).patients = s.patients := rfl

@[simp] lemma schedule_rndIdx (t : K) (pr : Nat) (a : Act) (s : SimState K) :
    (schedule t pr a s).rndIdx = s.rndIdx := rfl

@[simp] lemma schedule_badRelease (t : K) (pr : Nat) (a : Act)
    (s : SimState K) : (schedule t pr a s).badRelease = s.badRelease := rfl

@[simp] lemma getPool_schedule (t : K) (pr : Nat) (a : Act) (s : SimState K)
    (st : Stage) : getPool (schedule t pr a s) st = getPool s st := rfl

lemma schedule_negDelay_of_ge {t : K} {s : SimState K} (h : s.now ≤ t)
    (pr : Nat) (a : Act) : (schedule t pr a s).negDelay = s.negDelay := by
  simp only [schedule]
  rw [if_neg (not_lt.mpr h)]

lemma schedule_events_perm (t : K) (pr : Nat) (a : Act) (s : SimState K) :
    (schedule t pr a s).events.Perm
      ((⟨t, pr, s.nextEid, a⟩ : Event K) :: s.events) :=
  List.perm_orderedInsert _ _ _

lemma mem_schedule_events {t : K} {pr : Nat} {a : Act} {s : SimState K}
    {e : Event K} :
    e ∈ (schedule t pr a s).events ↔
      e = (⟨t, pr, s.nextEid, a⟩ : Event K) ∨ e ∈ s.events :=
  List.mem_orderedInsert _

lemma sorted_schedule {s : SimState K} (h : s.events.Sorted evLE)
    (t : K) (pr : Nat) (a : Act) : (schedule t pr a s).events.Sorted evLE :=
  List.Sorted.orderedInsert _ _ h

lemma evCnt_schedule (t : K) (pr : Nat) (a b : Act) (s : SimState K) :
    evCnt (schedule t pr a s) b = evCnt s b + (if a = b then 1 else 0) := by
  unfold evCnt
  rw [(schedule_events_perm t pr a s).countP_eq, List.countP_cons]
  simp

lemma evCnt_schedule_ne (t : K) (pr : Nat) {a b : Act} (h : a ≠ b)
    (s : SimState K) : evCnt (schedule t pr a s) b = evCnt s b := by
  rw [evCnt_schedule, if_neg h]
  simp

@[simp] lemma setPool_now (s : SimState K) (st : Stage) (p : PoolState K) :
    (setPool s st p).now = s.now := rfl

@[simp] lemma setPool_events (s : SimState K) (st : Stage) (p : PoolState K) :
    (setPool s st p).events = s.events := rfl

@[simp] lemma setPool_nextEid (s : SimState K) (st : Stage) (p : PoolState K) :
    (setPool s st p).nextEid = s.nextEid := rfl

@[simp] lemma setPool_nextPid (s : SimState K) (st : Stage) (p : PoolState K) :
    (setPool s st p).nextPid = s.nextPid := rfl

@[simp] lemma setPool_allPatients (s : SimState K) (st : Stage)
    (p : PoolState K) : (setPool s st p).allPatients = s.allPatients := rfl

@[simp] lemma setPool_patients (s : SimState K) (st : Stage)
    (p : PoolState K) : (setPool s st p).patients = s.patients := rfl

@[simp] lemma setPool_rndIdx (s : SimState K) (st : Stage) (p : PoolState K) :
    (setPool s st p).rndIdx = s.rndIdx := rfl

@[simp] lemma setPool_negDelay (s : SimState K) (st : Stage)
    (p : PoolState K) : (setPool s st p).negDelay = s.negDelay := rfl

@[simp] lemma setPool_badRelease (s : SimState K) (st : Stage)
    (p : PoolState K) : (setPool s st p).badRelease = s.badRelease := rfl

@[simp] lemma evCnt_setPool (s : SimState K) (st : Stage) (p : PoolState K)
    (a : Act) : evCnt (setPool s st p) a = evCnt s a := rfl

lemma getPool_setPool (s : SimState K) (st st' : Stage) (p : PoolState K) :
    getPool (setPool s st p) st' = if st' = st then p else getPool s st' := by
  simp [getPool, setPool, Function.update_apply]

@[simp] lemma getPool_setPool_same (s : SimState K) (st : Stage)
    (p : PoolState K) : getPool (setPool s st p) st = p := by
  simp [getPool_setPool]

lemma getPool_setPool_ne (s : SimState K) {st st' : Stage} (p : PoolState K)
    (h : st' ≠ st) : getPool (setPool s st p) st' = getPool s st' := by
  simp [getPool_setPool, h]

@[simp] lemma setPatient_now (s : SimState K) (pid : Nat) (p : Patient K) :
    (setPatient s pid p).now = s.now := rfl

@[simp] lemma setPatient_events (s : SimState K) (pid : Nat) (p : Patient K) :
    (setPatient s pid p).events = s.events := rfl

@[simp] lemma setPatient_nextEid (s : SimState K) (pid : Nat) (p : Patient K) :
    (setPatient s pid p).nextEid = s.nextEid := rfl

@[simp] lemma setPatient_nextPid (s : SimState K) (pid : Nat) (p : Patient K) :
    (setPatient s pid p).nextPid = s.nextPid := rfl

@[simp] lemma setPatient_patients (s : SimState K) (pid : Nat)
    (p : Patient K) : (setPatient s pid p).patients = s.patients := rfl

@[simp] lemma setPatient_rndIdx (s : SimState K) (pid : Nat) (p : Patient K) :
    (setPatient s pid p).rndIdx = s.rndIdx := rfl

@[simp] lemma setPatient_negDelay (s : SimState K) (pid : Nat)
    (p : Patient K) : (setPatient s pid p).negDelay = s.negDelay := rfl

@[simp] lemma setPatient_badRelease (s : SimState K) (pid : Nat)
    (p : Patient K) : (setPatient s pid p).badRelease = s.badRelease := rfl

@[simp] lemma setPatient_allPatients (s : SimState K) (pid : Nat)
    (p : Patient K) :
    (setPatient s pid p).allPatients = s.allPatients.set pid p := rfl

@[simp] lemma evCnt_setPatient (s : SimState K) (pid : Nat) (p : Patient K)
    (a : Act) : evCnt (setPatient s pid p) a = evCnt s a := rfl

@[simp] lemma getPool_setPatient (s : SimState K) (pid : Nat) (p : Patient K)
    (st : Stage) : getPool (setPatient s pid p) st = getPool s st := rfl

@[simp] lemma nextDraw_fst (s : SimState K) :
    (nextDraw stream s).1 = stream s.rndIdx := rfl

@[simp] lemma nextDraw_now (s : SimState K) :
    (nextDraw stream s).2.now = s.now := rfl

@[simp] lemma nextDraw_events (s : SimState K) :
    (nextDraw stream s).2.events = s.events := rfl

@[simp] lemma nextDraw_nextEid (s : SimState K) :
    (nextDraw stream s).2.nextEid = s.nextEid := rfl

@[simp] lemma nextDraw_nextPid (s : SimState K) :
    (nextDraw stream s).2.nextPid = s.nextPid := rfl

@[simp] lemma nextDraw_allPatients (s : SimState K) :
    (nextDraw stream s).2.allPatients = s.allPatients := rfl

@[simp] lemma nextDraw_patients (s : SimState K) :
    (nextDraw stream s).2.patients = s.patients := rfl

@[simp] lemma nextDraw_rndIdx (s : SimState K) :
    (nextDraw stream s).2.rndIdx = s.rndIdx + 1 := rfl

@[simp] lemma nextDraw_negDelay (s : SimState K) :
    (nextDraw stream s).2.negDelay = s.negDelay := rfl

@[simp] lemma nextDraw_badRelease (s : SimState K) :
    (nextDraw stream s).2.badRelease = s.badRelease := rfl

@[simp] lemma getPool_nextDraw (s : SimState K) (st : Stage) :
    getPool (nextDraw stream s).2 st = getPool s st := rfl

@[simp] lemma evCnt_nextDraw (s : SimState K) (a : Act) :
    evCnt (nextDraw stream s).2 a = evCnt s a := rfl

lemma getPatient_eq (s : SimState K) (pid : Nat)
    (h : pid < s.allPatients.length) :
    getPatient s pid = s.allPatients.get ⟨pid, h⟩ := by
  simp [getPatient, List.getD_eq_getElem?_getD, List.getElem?_eq_getElem h]

@[simp] lemma getPatient_schedule (t : K) (pr : Nat) (a : Act)
    (s : SimState K) (k : Nat) :
    getPatient (schedule t pr a s) k = getPatient s k := rfl

@[simp] lemma getPatient_setPool (s : SimState K) (st : Stage)
    (p : PoolState K) (k : Nat) :
    getPatient (setPool s st p) k = getPatient s k := rfl

@[simp] lemma getPatient_nextDraw (s : SimState K) (k : Nat) :
    getPatient (nextDraw stream s).2 k = getPatient s k := rfl

lemma getPatient_setPatient_self {s : SimState K} {pid : Nat}
    (h : pid < s.allPatients.length) (p : Patient K) :
    getPatient (setPatient s pid p) pid = p := by
  simp [getPatient, setPatient, List.getD_eq_getElem?_getD,
    List.getElem?_set_self h]

lemma getPatient_setPatient_ne (s : SimState K) {k pid : Nat} (hne : pid ≠ k)
    (p : Patient K) : getPatient (setPatient s pid p) k = getPatient s k := by
  simp [getPatient, setPatient, List.getD_eq_getElem?_getD,
    List.getElem?_set_ne hne]

lemma getPatient_append_old {s : SimState K} {k : Nat}
    (h : k < s.allPatients.length) (l : List (Patient K)) :
    getPatient { s with allPatients := s.allPatients ++ l } k =
      getPatient s k := by
  simp [getPatient, List.getD_eq_getElem?_getD, List.getElem?_append,
    List.getElem?_eq_getElem h, h]

lemma getPatient_append_new (s : SimState K) (pat : Patient K) :
    getPatient { s with allPatients := s.allPatients ++ [pat] }
      s.allPatients.length = pat := by
  simp [getPatient, List.getD_eq_getElem?_getD, List.getElem?_concat_length]

lemma poolRequest_queue (now : K) (pid : Nat) (p : PoolState K) :
    (poolRequest now pid p).queue = p.queue ++ [pid] := rfl

lemma poolRequest_users (now : K) (pid : Nat) (p : PoolState K) :
    (poolRequest now pid p).users = p.users := rfl

lemma poolRequest_stats (now : K) (pid : Nat) (p : PoolState K) :
    (poolRequest now pid p).stats = p.stats ++ [⟨now, p.queue.length⟩] := rfl

lemma triggerPut_empty {p : PoolState K} (h : p.queue = []) :
    triggerPut p = (p, none) := by
  simp [triggerPut, h]

lemma triggerPut_busy {p : PoolState K} {pid : Nat} {rest : List Nat}
    (h : p.queue = pid :: rest) (hc : ¬ p.users.length < p.capacity) :
    triggerPut p = (p, none) := by
  simp [triggerPut, h, hc]

lemma triggerPut_admits {p : PoolState K} {pid : Nat} {rest : List Nat}
    (h : p.queue = pid :: rest) (hc : p.users.length < p.capacity) :
    triggerPut p =
      ({ p with queue := rest, users := p.users ++ [pid],
                grantLog := p.grantLog ++ [pid] }, some pid) := by
  simp [triggerPut, h, hc]

lemma poolRelease_mem {p : PoolState K} {pid : Nat} (now : K)
    (h : pid ∈ p.users) :
    poolRelease now pid p =
      ({ p with stats := p.stats ++ [⟨now, p.queue.length⟩],
                users := p.users.erase pid,
                releaseLog := p.releaseLog ++ [pid] }, true) := by
  simp [poolRelease, h]

lemma poolRelease_not_mem {p : PoolState K} {pid : Nat} (now : K)
    (h : pid ∉ p.users) :
    poolRelease now pid p =
      ({ p with stats := p.stats ++ [⟨now, p.queue.length⟩] }, false) := by
  simp [poolRelease, h]

lemma PoolInv_mono {now now' : K} {p : PoolState K} (h : now ≤ now')
    (hp : PoolInv now p) : PoolInv now' p :=
  ⟨hp.users_le, hp.fifo, hp.pairing, hp.stats_sorted,
   fun d hd => le_trans (hp.stats_le d hd) h⟩

lemma PoolInv_append_stat {now : K} {p : PoolState K} (hp : PoolInv now p)
    (q : Nat) :
    List.Pairwise (fun a b : DataPoint K => a.timestamp ≤ b.timestamp)
        (p.stats ++ [⟨now, q⟩]) ∧
      ∀ d ∈ p.stats ++ [(⟨now, q⟩ : DataPoint K)], d.timestamp ≤ now := by
  constructor
  · rw [List.pairwise_append]
    refine ⟨hp.stats_sorted, List.pairwise_singleton _ _, ?_⟩
    intro a ha b hb
    rw [List.mem_singleton] at hb
    subst hb
    exact hp.stats_le a ha
  · intro d hd
    rcases List.mem_append.mp hd with hd | hd
    · exact hp.stats_le d hd
    · rw [List.mem_singleton] at hd
      subst hd
      exact le_refl _

lemma PoolInv_request {now : K} {p : PoolState K} (hp : PoolInv now p)
    (pid : Nat) : PoolInv now (poolRequest now pid p) := by
  obtain ⟨h1, h2⟩ := PoolInv_append_stat hp p.queue.length
  exact ⟨hp.users_le, by simp [poolRequest, hp.fifo], hp.pairing, h1, h2⟩

lemma perm_snoc_middle (u r : List Nat) (pid : Nat) :
    ((u ++ r) ++ [pid]).Perm ((u ++ [pid]) ++ r) := by
  rw [List.append_assoc, List.append_assoc]
  exact List.Perm.append_left u List.perm_append_comm

lemma PoolInv_triggerPut {now : K} {p : PoolState K} (hp : PoolInv now p) :
    PoolInv now (triggerPut p).1 := by
  rcases hq : p.queue with _ | ⟨pid, rest⟩
  · rw [triggerPut_empty hq]
    exact hp
  · by_cases hc : p.users.length < p.capacity
    · rw [triggerPut_admits hq hc]
      dsimp only
      refine ⟨?_, ?_, ?_, hp.stats_sorted, hp.stats_le⟩
      · simpa using hc
      · rw [hp.fifo, hq]
        simp
      · exact (hp.pairing.append_right [pid]).trans
          (perm_snoc_middle p.users p.releaseLog pid)
    · rw [triggerPut_busy hq hc]
      exact hp

lemma PoolInv_release {now : K} {p : PoolState K} (hp : PoolInv now p)
    (pid : Nat) : PoolInv now (poolRelease now pid p).1 := by
  obtain ⟨h1, h2⟩ := PoolInv_append_stat hp p.queue.length
  by_cases h : pid ∈ p.users
  · rw [poolRelease_mem now h]
    dsimp only
    refine ⟨?_, hp.fifo, ?_, h1, h2⟩
    · exact le_trans (List.length_erase_le _ _) hp.users_le
    · have h3 : (p.users ++ p.releaseLog).Perm
          ((p.users.erase pid ++ p.releaseLog) ++ [pid]) := by
        refine List.Perm.trans ((List.perm_cons_erase h).append_right _) ?_
        exact ((List.perm_append_singleton pid _).symm).trans
          (List.Perm.refl _)
      refine (hp.pairing.trans h3).trans ?_
      rw [List.append_assoc]
  · rw [poolRelease_not_mem now h]
    exact ⟨hp.users_le, hp.fifo, hp.pairing, h1, h2⟩

lemma TsShape_mono {now now' : K} {pat : Patient K} (h : now ≤ now')
    (ht : TsShape now pat) : TsShape now' pat := by
  obtain ⟨l, h1, h2, h3, h4⟩ := ht.shape
  exact ⟨ht.other_none, ⟨l, h1, h2, h3, fun v hv => le_trans (h4 v hv) h⟩⟩

lemma map_some_replicate_set (l : List K) (v : K) (m : Nat) (hm : 0 < m) :
    (l.map some ++ List.replicate m (none : Option K)).set l.length (some v) =
      (l ++ [v]).map some ++ List.replicate (m - 1) none := by
  induction l with
  | nil =>
    obtain ⟨m', rfl⟩ : ∃ m', m = m' + 1 := ⟨m - 1, by omega⟩
    simp [List.replicate_succ]
  | cons a t ih =>
    simpa using ih

lemma tsList_update (pat : Patient K) (ts : Timestamps K) (p' : PC) :
    tsList { pat with timestamps := ts, pc := p' } = tsListT pat.is_for_ed ts := rfl

lemma tsList_update_ts (pat : Patient K) (ts : Timestamps K) :
    tsList { pat with timestamps := ts } = tsListT pat.is_for_ed ts := rfl

lemma tsList_def (pat : Patient K) :
    tsList pat = tsListT pat.is_for_ed pat.timestamps := rfl

lemma otherBranch_update (pat : Patient K) (ts : Timestamps K) (p' : PC) :
    otherBranch { pat with timestamps := ts, pc := p' } =
      otherBranchT pat.is_for_ed ts := rfl

lemma otherBranch_update_ts (pat : Patient K) (ts : Timestamps K) :
    otherBranch { pat with timestamps := ts } =
      otherBranchT pat.is_for_ed ts := rfl

lemma otherBranch_def (pat : Patient K) :
    otherBranch pat = otherBranchT pat.is_for_ed pat.timestamps := rfl

lemma tsListT_empty (b : Bool) :
    tsListT b ({} : Timestamps K) = List.replicate 10 none := by
  cases b <;> rfl

lemma otherBranchT_empty (b : Bool) :
    ∀ v ∈ otherBranchT b ({} : Timestamps K), v = (none : Option K) := by
  cases b <;> simp [otherBranchT]

lemma tsListT_setEntry (b : Bool) (ts : Timestamps K) {i : Nat} (hi : i ≤ 2)
    (t : K) :
    tsListT b (Timestamps.setEntry (stageAt b i) t ts) =
      (tsListT b ts).set (3 * i) (some t) := by
  interval_cases i <;> cases b <;> rfl

lemma tsListT_setStart (b : Bool) (ts : Timestamps K) {i : Nat} (hi : i ≤ 2)
    (t : K) :
    tsListT b (Timestamps.setStart (stageAt b i) t ts) =
      (tsListT b ts).set (3 * i + 1) (some t) := by
  interval_cases i <;> cases b <;> rfl

lemma tsListT_setStageExit (b : Bool) (ts : Timestamps K) {i : Nat}
    (hi : i ≤ 2) (t : K) :
    tsListT b (Timestamps.setStageExit (stageAt b i) t ts) =
      (tsListT b ts).set (3 * i + 2) (some t) := by
  interval_cases i <;> cases b <;> rfl

lemma tsListT_setFinalExit (b : Bool) (ts : Timestamps K) (t : K) :
    tsListT b { ts with exit := some t } = (tsListT b ts).set 9 (some t) := by
  cases b <;> rfl

lemma otherBranchT_setEntry (b : Bool) (ts : Timestamps K) {i : Nat}
    (hi : i ≤ 2) (t : K) :
    otherBranchT b (Timestamps.setEntry (stageAt b i) t ts) =
      otherBranchT b ts := by
  interval_cases i <;> cases b <;> rfl

lemma otherBranchT_setStart (b : Bool) (ts : Timestamps K) {i : Nat}
    (hi : i ≤ 2) (t : K) :
    otherBranchT b (Timestamps.setStart (stageAt b i) t ts) =
      otherBranchT b ts := by
  interval_cases i <;> cases b <;> rfl

lemma otherBranchT_setStageExit (b : Bool) (ts : Timestamps K) {i : Nat}
    (hi : i ≤ 2) (t : K) :
    otherBranchT b (Timestamps.setStageExit (stageAt b i) t ts) =
      otherBranchT b ts := by
  interval_cases i <;> cases b <;> rfl

lemma otherBranchT_setFinalExit (b : Bool) (ts : Timestamps K) (t : K) :
    otherBranchT b { ts with exit := some t } = otherBranchT b ts := by
  cases b <;> rfl

lemma TsShape_advance {now : K} {pat pat' : Patient K}
    (hts : tsList pat' = (tsList pat).set (recCount pat.pc) (some now))
    (hob : otherBranch pat' = otherBranch pat)
    (hpc : recCount pat'.pc = recCount pat.pc + 1)
    (hlt : recCount pat.pc < 10)
    (ht : TsShape now pat) : TsShape now pat' := by
  obtain ⟨l, h1, h2, h3, h4⟩ := ht.shape
  refine ⟨by rw [hob]; exact ht.other_none, ⟨l ++ [now], ?_, ?_, ?_, ?_⟩⟩
  · rw [hts, h1, ← h2, map_some_replicate_set l now _ (by omega), hpc, h2,
      Nat.sub_sub]
  · rw [hpc, ← h2]
    simp
  · rw [List.pairwise_append]
    refine ⟨h3, List.pairwise_singleton _ _, ?_⟩
    intro a ha b hb
    rw [List.mem_singleton] at hb
    subst hb
    exact h4 a ha
  · intro v hv
    rcases List.mem_append.mp hv with hv | hv
    · exact h4 v hv
    · rw [List.mem_singleton] at hv
      subst hv
      exact le_refl _

lemma LocInv_of_counts {s s' : SimState K} {pat : Patient K}
    (h1 : evCnt s' (Act.patInit pat.id) = evCnt s (Act.patInit pat.id))
    (h2 : evCnt s' (Act.grant pat.id) = evCnt s (Act.grant pat.id))
    (h3 : evCnt s' (Act.svcTimeout pat.id) = evCnt s (Act.svcTimeout pat.id))
    (hq : ∀ st, (getPool s' st).queue.count pat.id =
      (getPool s st).queue.count pat.id)
    (hu : ∀ st, (getPool s' st).users.count pat.id =
      (getPool s st).users.count pat.id)
    (h : LocInv s pat) : LocInv s' pat := by
  unfold LocInv noEvs outOfPools outOfPoolsExcept at h ⊢
  rcases hpc : pat.pc with _ | i | i | _ <;> rw [hpc] at h <;>
    simp only [h1, h2, h3, hq, hu] <;> exact h

lemma evCnt_pop {s : SimState K} {e : Event K} {rest : List (Event K)}
    (h : s.events = e :: rest) (a : Act) :
    evCnt s a =
      evCnt { s with events := rest, now := e.time } a +
        (if e.act = a then 1 else 0) := by
  unfold evCnt
  rw [h]
  simp [List.countP_cons]

lemma setPool_self (s : SimState K) (st : Stage) :
    setPool s st (getPool s st) = s := by
  simp [setPool, getPool, Function.update_eq_self]

lemma Inv_pat_ts {s : SimState K} (hI : Inv cfg s) (k : Nat)
    (h : k < s.allPatients.length) :
    TsShape s.now (getPatient s k) :=
  hI.pat_ts k h (by rw [hI.next_pid]; omega)

lemma Inv_pat_loc {s : SimState K} (hI : Inv cfg s) (k : Nat)
    (h : k < s.allPatients.length) :
    LocInv s (getPatient s k) :=
  hI.pat_loc k h (by rw [hI.next_pid]; omega)

lemma ShapeN_mono {n : Nat} {now now' : K} {pat : Patient K} (h : now ≤ now')
    (hs : ShapeN n now pat) : ShapeN n now' pat := by
  obtain ⟨ho, l, h1, h2, h3, h4⟩ := hs
  exact ⟨ho, l, h1, h2, h3, fun v hv => le_trans (h4 v hv) h⟩

lemma TsShape.toShapeN {now : K} {pat : Patient K} (ht : TsShape now pat) :
    ShapeN (recCount pat.pc) now pat := ⟨ht.other_none, ht.shape⟩

lemma TsShape_ofShapeN {now : K} {pat : Patient K}
    (h : ShapeN (recCount pat.pc) now pat) : TsShape now pat := ⟨h.1, h.2⟩

lemma ShapeN_advance {now : K} {pat pat' : Patient K} {n : Nat}
    (hts : tsList pat' = (tsList pat).set n (some now))
    (hob : otherBranch pat' = otherBranch pat)
    (hn : n < 10)
    (h : ShapeN n now pat) : ShapeN (n + 1) now pat' := by
  obtain ⟨ho, l, h1, h2, h3, h4⟩ := h
  refine ⟨by rw [hob]; exact ho, ⟨l ++ [now], ?_, ?_, ?_, ?_⟩⟩
  · rw [hts, h1, ← h2, map_some_replicate_set l now _ (by omega), h2,
      Nat.sub_sub]
  · rw [← h2]
    simp
  · rw [List.pairwise_append]
    refine ⟨h3, List.pairwise_singleton _ _, ?_⟩
    intro a ha b hb
    rw [List.mem_singleton] at hb
    subst hb
    exact h4 a ha
  · intro v hv
    rcases List.mem_append.mp hv with hv | hv
    · exact h4 v hv
    · rw [List.mem_singleton] at hv
      subst hv
      exact le_refl _

lemma Inv_pop {s : SimState K} {e : Event K} {rest : List (Event K)}
    (hI : Inv cfg s) (h : s.events = e :: rest) (pid : Nat)
    (hact : ∀ q, (e.act = Act.patInit q ∨ e.act = Act.grant q ∨
      e.act = Act.svcTimeout q) → q = pid) :
    InvExcept cfg { s with events := rest, now := e.time } pid := by
  have hmem : e ∈ s.events := by
    rw [h]
    exact List.mem_cons_self _ _
  have hnow : s.now ≤ e.time := hI.ev_future e hmem
  have hsorted : (e :: rest).Sorted evLE := by
    rw [← h]
    exact hI.ev_sorted
  have hcnt : ∀ a : Act, e.act ≠ a →
      evCnt { s with events := rest, now := e.time } a = evCnt s a := by
    intro a ha
    have h2 := evCnt_pop h a
    rw [if_neg ha] at h2
    omega
  refine ⟨hsorted.of_cons, ?_, ?_, hI.heap_id, hI.next_pid, ?_, hI.retained,
    ?_, hI.pool_pid, hI.no_neg, hI.no_bad, ?_, ?_, hI.pat_nodup⟩
  · intro x hx
    exact evLE_time (List.rel_of_sorted_cons hsorted x hx)
  · intro x hx q hq
    exact hI.ev_pid x (by rw [h]; exact List.mem_cons_of_mem _ hx) q hq
  · intro k hk
    exact le_trans (hI.created_le k hk) hnow
  · intro st
    exact PoolInv_mono hnow (hI.pools st)
  · intro k hk _
    exact TsShape_mono hnow (Inv_pat_ts hI k hk)
  · intro k hk hne
    have hid : (getPatient s k).id = k := hI.heap_id k hk
    have hgp : getPatient { s with events := rest, now := e.time } k =
        getPatient s k := rfl
    rw [hgp]
    refine @LocInv_of_counts K _ s _ _ ?_ ?_ ?_ (fun st => rfl)
      (fun st => rfl) (Inv_pat_loc hI k hk)
    · refine hcnt _ fun hc => hne ?_
      rw [← hid]
      exact hact _ (Or.inl hc)
    · refine hcnt _ fun hc => hne ?_
      rw [← hid]
      exact hact _ (Or.inr (Or.inl hc))
    · refine hcnt _ fun hc => hne ?_
      rw [← hid]
      exact hact _ (Or.inr (Or.inr hc))

lemma LocInv_pendingInit {s' : SimState K} {pat : Patient K}
    (hpc : pat.pc = PC.pendingInit)
    (h1 : evCnt s' (Act.patInit pat.id) = 1)
    (h2 : evCnt s' (Act.grant pat.id) = 0)
    (h3 : evCnt s' (Act.svcTimeout pat.id) = 0)
    (hout : outOfPools s' pat.id) : LocInv s' pat := by
  unfold LocInv
  rw [hpc]
  exact ⟨h1, h2, h3, hout⟩

lemma LocInv_waitingGrant_A {s' : SimState K} {pat : Patient K} {j : Nat}
    (hpc : pat.pc = PC.waitingGrant j) (hj : j ≤ 2)
    (h1 : evCnt s' (Act.patInit pat.id) = 0)
    (h3 : evCnt s' (Act.svcTimeout pat.id) = 0)
    (hex : outOfPoolsExcept s' pat.id (stageAt pat.is_for_ed j))
    (hq1 : (getPool s' (stageAt pat.is_for_ed j)).queue.count pat.id = 1)
    (hu0 : (getPool s' (stageAt pat.is_for_ed j)).users.count pat.id = 0)
    (hg0 : evCnt s' (Act.grant pat.id) = 0) : LocInv s' pat := by
  unfold LocInv
  rw [hpc]
  exact ⟨hj, h1, h3, hex, Or.inl ⟨hq1, hu0, hg0⟩⟩

lemma LocInv_waitingGrant_B {s' : SimState K} {pat : Patient K} {j : Nat}
    (hpc : pat.pc = PC.waitingGrant j) (hj : j ≤ 2)
    (h1 : evCnt s' (Act.patInit pat.id) = 0)
    (h3 : evCnt s' (Act.svcTimeout pat.id) = 0)
    (hex : outOfPoolsExcept s' pat.id (stageAt pat.is_for_ed j))
    (hq0 : (getPool s' (stageAt pat.is_for_ed j)).queue.count pat.id = 0)
    (hu1 : (getPool s' (stageAt pat.is_for_ed j)).users.count pat.id = 1)
    (hg1 : evCnt s' (Act.grant pat.id) = 1) : LocInv s' pat := by
  unfold LocInv
  rw [hpc]
  exact ⟨hj, h1, h3, hex, Or.inr ⟨hq0, hu1, hg1⟩⟩

lemma LocInv_inService {s' : SimState K} {pat : Patient K} {j : Nat}
    (hpc : pat.pc = PC.inService j) (hj : j ≤ 2)
    (h1 : evCnt s' (Act.patInit pat.id) = 0)
    (h2 : evCnt s' (Act.grant pat.id) = 0)
    (h3 : evCnt s' (Act.svcTimeout pat.id) = 1)
    (hex : outOfPoolsExcept s' pat.id (stageAt pat.is_for_ed j))
    (hq0 : (getPool s' (stageAt pat.is_for_ed j)).queue.count pat.id = 0)
    (hu1 : (getPool s' (stageAt pat.is_for_ed j)).users.count pat.id = 1) :
    LocInv s' pat := by
  unfold LocInv
  rw [hpc]
  exact ⟨hj, h1, h2, h3, hex, hq0, hu1⟩

lemma LocInv_done {s' : SimState K} {pat : Patient K}
    (hpc : pat.pc = PC.done)
    (h1 : evCnt s' (Act.patInit pat.id) = 0)
    (h2 : evCnt s' (Act.grant pat.id) = 0)
    (h3 : evCnt s' (Act.svcTimeout pat.id) = 0)
    (hout : outOfPools s' pat.id) : LocInv s' pat := by
  unfold LocInv
  rw [hpc]
  exact ⟨⟨h1, h2, h3⟩, hout⟩

lemma schedule_negDelay_false {s : SimState K} (h : s.negDelay = false)
    {t : K} (ht : s.now ≤ t) (pr : Nat) (a : Act) :
    (schedule t pr a s).negDelay = false := by
  simp only [schedule]
  rw [if_neg (not_lt.mpr ht), h]

lemma runTrigger_inv {s : SimState K} (hI : Inv cfg s) (st : Stage) :
    Inv cfg (runTrigger st s) := by
  rcases hq : (getPool s st).queue with _ | ⟨gpid, grest⟩
  · have h0 : runTrigger st s = s := by
      unfold runTrigger
      rw [triggerPut_empty hq]
      exact setPool_self s st
    rw [h0]
    exact hI
  · by_cases hc : (getPool s st).users.length < (getPool s st).capacity
    · have hrt : runTrigger st s =
          schedule s.now 1 (Act.grant gpid)
            (setPool s st
              { getPool s st with
                  queue := grest,
                  users := (getPool s st).users ++ [gpid],
                  grantLog := (getPool s st).grantLog ++ [gpid] }) := by
        unfold runTrigger
        rw [triggerPut_admits hq hc]
      have hgp_lt : gpid < s.nextPid :=
        (hI.pool_pid st).1 gpid (by rw [hq]; exact List.mem_cons_self _ _)
      have hgp_len : gpid < s.allPatients.length := by
        rw [← hI.next_pid]
        exact hgp_lt
      have hgid : (getPatient s gpid).id = gpid := hI.heap_id gpid hgp_len
      have hqcnt : (getPool s st).queue.count gpid = grest.count gpid + 1 := by
        rw [hq, List.count_cons]
        simp
      have hmain : ∃ j, (getPatient s gpid).pc = PC.waitingGrant j ∧ j ≤ 2 ∧
          stageAt (getPatient s gpid).is_for_ed j = st ∧
          grest.count gpid = 0 ∧
          (getPool s st).users.count gpid = 0 ∧
          evCnt s (Act.grant gpid) = 0 ∧
          evCnt s (Act.patInit gpid) = 0 ∧
          evCnt s (Act.svcTimeout gpid) = 0 ∧
          outOfPoolsExcept s gpid st := by
        have hgl := Inv_pat_loc hI gpid hgp_len
        unfold LocInv at hgl
        rcases hpc : (getPatient s gpid).pc with _ | j | j | _ <;>
          rw [hpc] at hgl <;> rw [hgid] at hgl
        · have h0 := (hgl.2.2.2 st).1
          omega
        · obtain ⟨hj, he1, he3, hex, hcase⟩ := hgl
          by_cases hst : stageAt (getPatient s gpid).is_for_ed j = st
          · rw [hst] at hcase hex
            rcases hcase with ⟨hq1, hu1, hg1⟩ | ⟨hq0, hu0, hg1⟩
            · exact ⟨j, rfl, hj, hst, by omega, hu1, hg1, he1, he3,
                fun st' hst' => hex st' hst'⟩
            · omega
          · have h0 := (hex st fun h2 => hst h2.symm).1
            omega
        · obtain ⟨hj, he1, he2, he3, hex, hqc, huc⟩ := hgl
          by_cases hst : stageAt (getPatient s gpid).is_for_ed j = st
          · rw [hst] at hqc
            omega
          · have h0 := (hex st fun h2 => hst h2.symm).1
            omega
        · have h0 := (hgl.2 st).1
          omega
      obtain ⟨j, hpc, hj, hst, hgrest, hucnt, hg0, hp0, ht0, hexc⟩ := hmain
      rw [hrt]
      refine ⟨?_, ?_, ?_, hI.heap_id, hI.next_pid, hI.created_le, hI.retained,
        ?_, ?_, ?_, hI.no_bad, ?_, ?_, hI.pat_nodup⟩
      · exact sorted_schedule hI.ev_sorted _ _ _
      · intro x hx
        rcases mem_schedule_events.mp hx with hx | hx
        · subst hx
          exact le_refl _
        · exact hI.ev_future x hx
      · intro x hx q hqq
        rcases mem_schedule_events.mp hx with hx | hx
        · subst hx
          rcases hqq with hqq | hqq | hqq <;> simp at hqq
          subst hqq
          simpa using hgp_lt
        · exact hI.ev_pid x hx q hqq
      · intro st'
        by_cases hst' : st' = st
        · subst hst'
          have h2 := PoolInv_triggerPut (hI.pools st')
          rw [triggerPut_admits hq hc] at h2
          simpa using h2
        · simp only [getPool_schedule, schedule_now, setPool_now,
            getPool_setPool_ne _ _ hst']
          exact hI.pools st'
      · intro st'
        by_cases hst' : st' = st
        · subst hst'
          simp only [getPool_schedule, getPool_setPool_same, schedule_nextPid,
            setPool_nextPid]
          constructor
          · intro q hqq
            exact (hI.pool_pid st').1 q
              (by rw [hq]; exact List.mem_cons_of_mem _ hqq)
          · intro q hqq
            rcases List.mem_append.mp hqq with hqq | hqq
            · exact (hI.pool_pid st').2 q hqq
            · rw [List.mem_singleton] at hqq
              rw [hqq]
              exact hgp_lt
        · simp only [getPool_schedule, getPool_setPool_ne _ _ hst',
            schedule_nextPid, setPool_nextPid]
          exact hI.pool_pid st'
      · exact schedule_negDelay_false (by simp [hI.no_neg]) (by simp) _ _
      · intro k hk _
        have hk2 : k < s.allPatients.length := by simpa using hk
        simp only [getPatient_schedule, getPatient_setPool, schedule_now,
          setPool_now]
        exact Inv_pat_ts hI k hk2
      · intro k hk _
        have hk2 : k < s.allPatients.length := by simpa using hk
        simp only [getPatient_schedule, getPatient_setPool]
        by_cases hkg : k = gpid
        · subst hkg
          refine LocInv_waitingGrant_B hpc hj ?_ ?_ ?_ ?_ ?_ ?_
          · rw [hgid, evCnt_schedule_ne _ _ (by simp) _, evCnt_setPool]
            exact hp0
          · rw [hgid, evCnt_schedule_ne _ _ (by simp) _, evCnt_setPool]
            exact ht0
          · intro st' hst'
            rw [hst] at hst'
            rw [hgid]
            simp only [getPool_schedule, getPool_setPool_ne _ _ hst']
            exact hexc st' hst'
          · rw [hgid, hst]
            simp only [getPool_schedule, getPool_setPool_same]
            exact hgrest
          · rw [hgid, hst]
            simp only [getPool_schedule, getPool_setPool_same]
            simp [List.count_append, hucnt]
          · rw [hgid, evCnt_schedule, evCnt_setPool, if_pos rfl, hg0]
        · have hid : (getPatient s k).id = k := hI.heap_id k hk2
          have hgk : gpid ≠ k := fun hcc => hkg hcc.symm
          refine LocInv_of_counts ?_ ?_ ?_ ?_ ?_ (Inv_pat_loc hI k hk2)
          · rw [evCnt_schedule_ne _ _ (by simp) _, evCnt_setPool]
          · refine evCnt_schedule_ne _ _ ?_ _
            rw [hid]
            intro hcc
            injection hcc with hcc'
            exact hgk hcc'
          · rw [evCnt_schedule_ne _ _ (by simp) _, evCnt_setPool]
          · intro st'
            by_cases hst' : st' = st
            · subst hst'
              simp only [getPool_schedule, getPool_setPool_same, hq]
              simp [List.count_cons, hid, hgk]
            · simp only [getPool_schedule, getPool_setPool_ne _ _ hst']
          · intro st'
            by_cases hst' : st' = st
            · subst hst'
              simp only [getPool_schedule, getPool_setPool_same]
              simp [List.count_append, List.count_singleton, hid, hgk]
            · simp only [getPool_schedule, getPool_setPool_ne _ _ hst']
    · have h0 : runTrigger st s = s := by
        unfold runTrigger
        rw [triggerPut_busy hq hc]
        exact setPool_self s st
      rw [h0]
      exact hI

lemma beginStage_aux {s0 : SimState K} {pid i : Nat} {pat1 : Patient K}
    {ST : Stage}
    (hI : InvExcept cfg s0 pid)
    (hpid : pid < s0.allPatients.length)
    (hi : i ≤ 2)
    (hev1 : evCnt s0 (Act.patInit pid) = 0)
    (hev2 : evCnt s0 (Act.grant pid) = 0)
    (hev3 : evCnt s0 (Act.svcTimeout pid) = 0)
    (hfree : outOfPools s0 pid)
    (hshape : ShapeN (3 * i) s0.now (getPatient s0 pid))
    (hid1 : pat1.id = pid)
    (hca1 : pat1.createdAt = (getPatient s0 pid).createdAt)
    (hpc1 : pat1.pc = PC.waitingGrant i)
    (hts1 : tsList pat1 =
      (tsList (getPatient s0 pid)).set (3 * i) (some s0.now))
    (hob1 : otherBranch pat1 = otherBranch (getPatient s0 pid))
    (hstp : stageAt pat1.is_for_ed i = ST) :
    Inv cfg (runTrigger ST
      (setPool (setPatient s0 pid pat1) ST
        (poolRequest s0.now pid (getPool s0 ST)))) := by
  refine runTrigger_inv ?_ _
  have hgp1p : getPatient (setPatient s0 pid pat1) pid = pat1 :=
    getPatient_setPatient_self hpid pat1
  have hgp1 : ∀ k, pid ≠ k →
      getPatient (setPatient s0 pid pat1) k = getPatient s0 k :=
    fun k hk => getPatient_setPatient_ne s0 hk pat1
  refine ⟨hI.ev_sorted, hI.ev_future, hI.ev_pid, ?_, ?_, ?_, ?_, ?_, ?_,
    hI.no_neg, hI.no_bad, ?_, ?_, hI.pat_nodup⟩
  · intro k hk
    have hk0 : k < s0.allPatients.length := by
      simpa using hk
    rcases eq_or_ne k pid with rfl | hkp
    · simp only [getPatient_setPool, hgp1p]
      exact hid1
    · simp only [getPatient_setPool, hgp1 k (Ne.symm hkp)]
      exact hI.heap_id k hk0
  · simpa using hI.next_pid
  · intro k hk
    have hk0 : k < s0.allPatients.length := by
      simpa using hk
    rcases eq_or_ne k pid with rfl | hkp
    · simp only [setPool_now, setPatient_now, getPatient_setPool, hgp1p, hca1]
      exact hI.created_le k hk0
    · simp only [setPool_now, setPatient_now, getPatient_setPool,
        hgp1 k (Ne.symm hkp)]
      exact hI.created_le k hk0
  · intro q
    rcases eq_or_ne q pid with rfl | hqp
    · simpa only [setPool_patients, setPatient_patients, setPool_allPatients,
        setPatient_allPatients, List.length_set, getPatient_setPool, hgp1p,
        hca1] using hI.retained q
    · simpa only [setPool_patients, setPatient_patients, setPool_allPatients,
        setPatient_allPatients, List.length_set, getPatient_setPool,
        hgp1 q (Ne.symm hqp)] using hI.retained q
  · intro st
    rcases eq_or_ne st ST with rfl | hst
    · simp only [setPool_now, setPatient_now, getPool_setPool_same]
      exact PoolInv_request (hI.pools st) pid
    · simp only [setPool_now, setPatient_now, getPool_setPool_ne _ _ hst,
        getPool_setPatient]
      exact hI.pools st
  · intro st
    rcases eq_or_ne st ST with rfl | hst
    · simp only [getPool_setPool_same, setPool_nextPid, setPatient_nextPid,
        poolRequest_queue, poolRequest_users]
      constructor
      · intro q hq
        rcases List.mem_append.mp hq with hq | hq
        · exact (hI.pool_pid st).1 q hq
        · rw [List.mem_singleton] at hq
          rw [hq, hI.next_pid]
          exact hpid
      · intro q hq
        exact (hI.pool_pid st).2 q hq
    · simp only [getPool_setPool_ne _ _ hst, getPool_setPatient,
        setPool_nextPid, setPatient_nextPid]
      exact hI.pool_pid st
  · intro k hk _
    have hk0 : k < s0.allPatients.length := by
      simpa using hk
    rcases eq_or_ne k pid with rfl | hkp
    · simp only [setPool_now, setPatient_now, getPatient_setPool, hgp1p]
      have hadv := ShapeN_advance hts1 hob1 (by omega) hshape
      refine TsShape_ofShapeN ?_
      rw [hpc1]
      show ShapeN (3 * i + 1) s0.now pat1
      exact hadv
    · simp only [setPool_now, setPatient_now, getPatient_setPool,
        hgp1 k (Ne.symm hkp)]
      exact hI.pat_ts k hk0 hkp
  · intro k hk _
    have hk0 : k < s0.allPatients.length := by
      simpa using hk
    rcases eq_or_ne k pid with rfl | hkp
    · simp only [getPatient_setPool, hgp1p]
      refine LocInv_waitingGrant_A hpc1 hi ?_ ?_ ?_ ?_ ?_ ?_
      · rw [hid1]
        exact hev1
      · rw [hid1]
        exact hev3
      · intro st' hst'
        rw [hstp] at hst'
        rw [hid1]
        simp only [getPool_setPool_ne _ _ hst', getPool_setPatient]
        exact hfree st'
      · rw [hid1, hstp]
        simp only [getPool_setPool_same, poolRequest_queue]
        rw [List.count_append, (hfree ST).1, List.count_singleton]
        simp
      · rw [hid1, hstp]
        simp only [getPool_setPool_same, poolRequest_users]
        exact (hfree ST).2
      · rw [hid1]
        exact hev2
    · simp only [getPatient_setPool, hgp1 k (Ne.symm hkp)]
      have hidk : (getPatient s0 k).id = k := hI.heap_id k hk0
      have hpk : (pid == (getPatient s0 k).id) = false := by
        rw [hidk, beq_eq_false_iff_ne]
        exact Ne.symm hkp
      refine @LocInv_of_counts K _ s0 _ _ rfl rfl rfl ?_ ?_
        (hI.pat_loc k hk0 hkp)
      · intro st'
        rcases eq_or_ne st' ST with rfl | hst'
        · simp only [getPool_setPool_same, getPool_setPatient,
            poolRequest_queue]
          rw [List.count_append, List.count_singleton, hpk]
          simp
        · simp only [getPool_setPool_ne _ _ hst', getPool_setPatient]
      · intro st'
        rcases eq_or_ne st' ST with rfl | hst'
        · simp only [getPool_setPool_same, getPool_setPatient,
            poolRequest_users]
        · simp only [getPool_setPool_ne _ _ hst', getPool_setPatient]

lemma beginStage_inv {s0 : SimState K} {pid i : Nat}
    (hI : InvExcept cfg s0 pid)
    (hpid : pid < s0.allPatients.length)
    (hi : i ≤ 2)
    (hev1 : evCnt s0 (Act.patInit pid) = 0)
    (hev2 : evCnt s0 (Act.grant pid) = 0)
    (hev3 : evCnt s0 (Act.svcTimeout pid) = 0)
    (hfree : outOfPools s0 pid)
    (hshape : ShapeN (3 * i) s0.now (getPatient s0 pid)) :
    Inv cfg (beginStage pid i s0) := by
  have hid : (getPatient s0 pid).id = pid := hI.heap_id pid hpid
  have hbs : beginStage pid i s0 =
      runTrigger (stageAt (getPatient s0 pid).is_for_ed i)
        (setPool (setPatient s0 pid
            { getPatient s0 pid with
                timestamps := Timestamps.setEntry
                  (stageAt (getPatient s0 pid).is_for_ed i) s0.now
                  (getPatient s0 pid).timestamps,
                pc := PC.waitingGrant i })
          (stageAt (getPatient s0 pid).is_for_ed i)
          (poolRequest s0.now pid
            (getPool s0 (stageAt (getPatient s0 pid).is_for_ed i)))) := rfl
  rw [hbs]
  refine beginStage_aux hI hpid hi hev1 hev2 hev3 hfree hshape hid rfl rfl
    ?_ ?_ rfl
  · rw [tsList_update, tsList_def]
    exact tsListT_setEntry _ _ hi _
  · rw [otherBranch_update, otherBranch_def]
    exact otherBranchT_setEntry _ _ hi _

lemma evCnt_pos_of_mem {s : SimState K} {e : Event K} {a : Act}
    (hm : e ∈ s.events) (ha : e.act = a) : 0 < evCnt s a := by
  unfold evCnt
  rw [List.countP_pos_iff]
  exact ⟨e, hm, by simp [ha]⟩

lemma exec_patInit_inv {s : SimState K} {e : Event K} {rest : List (Event K)}
    (hI : Inv cfg s) (h : s.events = e :: rest) {pid : Nat}
    (hact : e.act = Act.patInit pid) :
    Inv cfg (execPatInit pid { s with events := rest, now := e.time }) := by
  have hmem : e ∈ s.events := by
    rw [h]
    exact List.mem_cons_self _ _
  have hnow : s.now ≤ e.time := hI.ev_future e hmem
  have hq : ∀ q, (e.act = Act.patInit q ∨ e.act = Act.grant q ∨
      e.act = Act.svcTimeout q) → q = pid := by
    intro q hqq
    rcases hqq with h1 | h1 | h1 <;> rw [hact] at h1
    · injection h1 with h2
      exact h2.symm
    · exact absurd h1 (by simp)
    · exact absurd h1 (by simp)
  have hIE := Inv_pop hI h pid hq
  have hpl : pid < s.nextPid := hI.ev_pid e hmem pid (Or.inl hact)
  have hplen : pid < s.allPatients.length := by
    rw [← hI.next_pid]
    exact hpl
  have hid : (getPatient s pid).id = pid := hI.heap_id pid hplen
  have hpos : 0 < evCnt s (Act.patInit pid) := evCnt_pos_of_mem hmem hact
  have hloc := Inv_pat_loc hI pid hplen
  have hmain : (getPatient s pid).pc = PC.pendingInit ∧
      evCnt s (Act.patInit pid) = 1 ∧ evCnt s (Act.grant pid) = 0 ∧
      evCnt s (Act.svcTimeout pid) = 0 ∧ outOfPools s pid := by
    unfold LocInv at hloc
    rcases hpc : (getPatient s pid).pc with _ | j | j | _ <;>
      rw [hpc] at hloc <;> rw [hid] at hloc
    · exact ⟨rfl, hloc.1, hloc.2.1, hloc.2.2.1, hloc.2.2.2⟩
    · exact absurd hloc.2.1 (by omega)
    · exact absurd hloc.2.1 (by omega)
    · exact absurd hloc.1.1 (by omega)
  obtain ⟨hpc, he1, he2, he3, hout⟩ := hmain
  have hcnt1 := evCnt_pop h (Act.patInit pid)
  rw [if_pos hact] at hcnt1
  have hcnt2 := evCnt_pop h (Act.grant pid)
  rw [if_neg (by rw [hact]; simp)] at hcnt2
  have hcnt3 := evCnt_pop h (Act.svcTimeout pid)
  rw [if_neg (by rw [hact]; simp)] at hcnt3
  show Inv cfg (beginStage pid 0 { s with events := rest, now := e.time })
  refine beginStage_inv hIE hplen (by omega) (by omega) (by omega) (by omega)
    hout ?_
  have h0 := (Inv_pat_ts hI pid hplen).toShapeN
  rw [hpc] at h0
  exact ShapeN_mono hnow h0

lemma grant_step_aux {sp : SimState K} {pid i : Nat} {pat1 : Patient K}
    {d : K}
    (hIE : InvExcept cfg sp pid)
    (hpid : pid < sp.allPatients.length)
    (hi : i ≤ 2)
    (hd : 0 ≤ d)
    (he1 : evCnt sp (Act.patInit pid) = 0)
    (he2 : evCnt sp (Act.grant pid) = 0)
    (he3 : evCnt sp (Act.svcTimeout pid) = 0)
    (hex : outOfPoolsExcept sp pid (stageAt pat1.is_for_ed i))
    (hq0 : (getPool sp (stageAt pat1.is_for_ed i)).queue.count pid = 0)
    (hu1 : (getPool sp (stageAt pat1.is_for_ed i)).users.count pid = 1)
    (hid1 : pat1.id = pid)
    (hca1 : pat1.createdAt = (getPatient sp pid).createdAt)
    (hpc1 : pat1.pc = PC.inService i)
    (hsh1 : ShapeN (3 * i + 2) sp.now pat1) :
    Inv cfg (schedule (sp.now + d) 1 (Act.svcTimeout pid)
      (nextDraw stream (setPatient sp pid pat1)).2) := by
  have hgp1p : getPatient (setPatient sp pid pat1) pid = pat1 :=
    getPatient_setPatient_self hpid pat1
  have hgp1 : ∀ k, pid ≠ k →
      getPatient (setPatient sp pid pat1) k = getPatient sp k :=
    fun k hk => getPatient_setPatient_ne sp hk pat1
  have hnd : ((nextDraw stream (setPatient sp pid pat1)).2).now ≤
      sp.now + d := by
    simp only [nextDraw_now, setPatient_now]
    exact le_add_of_nonneg_right hd
  refine ⟨?_, ?_, ?_, ?_, ?_, ?_, ?_, ?_, ?_, ?_, ?_, ?_, ?_, hIE.pat_nodup⟩
  · exact sorted_schedule hIE.ev_sorted _ _ _
  · intro x hx
    rcases mem_schedule_events.mp hx with hx | hx
    · subst hx
      simp only [schedule_now, nextDraw_now, setPatient_now]
      exact le_add_of_nonneg_right hd
    · simp only [schedule_now, nextDraw_now, setPatient_now]
      exact hIE.ev_future x hx
  · intro x hx q hqq
    rcases mem_schedule_events.mp hx with hx | hx
    · subst hx
      rcases hqq with hqq | hqq | hqq <;> simp at hqq
      subst hqq
      simp only [schedule_nextPid, nextDraw_nextPid, setPatient_nextPid]
      rw [hIE.next_pid]
      exact hpid
    · exact hIE.ev_pid x hx q hqq
  · intro k hk
    have hk0 : k < sp.allPatients.length := by
      simpa using hk
    rcases eq_or_ne k pid with rfl | hkp
    · simp only [getPatient_schedule, getPatient_nextDraw, hgp1p]
      exact hid1
    · simp only [getPatient_schedule, getPatient_nextDraw,
        hgp1 k (Ne.symm hkp)]
      exact hIE.heap_id k hk0
  · simpa using hIE.next_pid
  · intro k hk
    have hk0 : k < sp.allPatients.length := by
      simpa using hk
    rcases eq_or_ne k pid with rfl | hkp
    · simp only [schedule_now, nextDraw_now, setPatient_now,
        getPatient_schedule, getPatient_nextDraw, hgp1p, hca1]
      exact hIE.created_le k hk0
    · simp only [schedule_now, nextDraw_now, setPatient_now,
        getPatient_schedule, getPatient_nextDraw, hgp1 k (Ne.symm hkp)]
      exact hIE.created_le k hk0
  · intro q
    rcases eq_or_ne q pid with rfl | hqp
    · simpa only [schedule_patients, nextDraw_patients, setPatient_patients,
        schedule_allPatients, nextDraw_allPatients, setPatient_allPatients,
        List.length_set, getPatient_schedule, getPatient_nextDraw, hgp1p,
        hca1] using hIE.retained q
    · simpa only [schedule_patients, nextDraw_patients, setPatient_patients,
        schedule_allPatients, nextDraw_allPatients, setPatient_allPatients,
        List.length_set, getPatient_schedule, getPatient_nextDraw,
        hgp1 q (Ne.symm hqp)] using hIE.retained q
  · intro st
    simp only [schedule_now, nextDraw_now, setPatient_now, getPool_schedule,
      getPool_nextDraw, getPool_setPatient]
    exact hIE.pools st
  · intro st
    simp only [getPool_schedule, getPool_nextDraw, getPool_setPatient,
      schedule_nextPid, nextDraw_nextPid, setPatient_nextPid]
    exact hIE.pool_pid st
  · refine schedule_negDelay_false ?_ hnd _ _
    simp only [nextDraw_negDelay, setPatient_negDelay]
    exact hIE.no_neg
  · simp only [schedule_badRelease, nextDraw_badRelease,
      setPatient_badRelease]
    exact hIE.no_bad
  · intro k hk _
    have hk0 : k < sp.allPatients.length := by
      simpa using hk
    rcases eq_or_ne k pid with rfl | hkp
    · simp only [schedule_now, nextDraw_now, setPatient_now,
        getPatient_schedule, getPatient_nextDraw, hgp1p]
      refine TsShape_ofShapeN ?_
      rw [hpc1]
      show ShapeN (3 * i + 2) sp.now pat1
      exact hsh1
    · simp only [schedule_now, nextDraw_now, setPatient_now,
        getPatient_schedule, getPatient_nextDraw, hgp1 k (Ne.symm hkp)]
      exact hIE.pat_ts k hk0 hkp
  · intro k hk _
    have hk0 : k < sp.allPatients.length := by
      simpa using hk
    rcases eq_or_ne k pid with rfl | hkp
    · simp only [getPatient_schedule, getPatient_nextDraw, hgp1p]
      refine LocInv_inService hpc1 hi ?_ ?_ ?_ ?_ ?_ ?_
      · rw [hid1, evCnt_schedule_ne _ _ (by simp) _, evCnt_nextDraw,
          evCnt_setPatient]
        exact he1
      · rw [hid1, evCnt_schedule_ne _ _ (by simp) _, evCnt_nextDraw,
          evCnt_setPatient]
        exact he2
      · rw [hid1, evCnt_schedule, evCnt_nextDraw, evCnt_setPatient,
          if_pos rfl, he3]
      · intro st' hst'
        rw [hid1]
        simp only [getPool_schedule, getPool_nextDraw, getPool_setPatient]
        exact hex st' hst'
      · rw [hid1]
        simp only [getPool_schedule, getPool_nextDraw, getPool_setPatient]
        exact hq0
      · rw [hid1]
        simp only [getPool_schedule, getPool_nextDraw, getPool_setPatient]
        exact hu1
    · simp only [getPatient_schedule, getPatient_nextDraw,
        hgp1 k (Ne.symm hkp)]
      have hidk : (getPatient sp k).id = k := hIE.heap_id k hk0
      refine @LocInv_of_counts K _ sp _ _ ?_ ?_ ?_ (fun st => rfl)
        (fun st => rfl) (hIE.pat_loc k hk0 hkp)
      · rw [evCnt_schedule_ne _ _ (by simp) _, evCnt_nextDraw,
          evCnt_setPatient]
      · rw [evCnt_schedule_ne _ _ (by simp) _, evCnt_nextDraw,
          evCnt_setPatient]
      · refine Eq.trans (evCnt_schedule_ne _ _ ?_ _) rfl
        rw [hidk]
        intro hcc
        injection hcc with hcc2
        exact hkp hcc2.symm

lemma execGrant_eq {s' : SimState K} {pid i : Nat}
    (hpc : (getPatient s' pid).pc = PC.waitingGrant i) (stream : Nat → K) :
    execGrant stream pid s' =
      schedule (s'.now + stream s'.rndIdx) 1 (Act.svcTimeout pid)
        (nextDraw stream (setPatient s' pid
          { getPatient s' pid with
              timestamps := Timestamps.setStart
                (stageAt (getPatient s' pid).is_for_ed i) s'.now
                (getPatient s' pid).timestamps,
              pc := PC.inService i })).2 := by
  simp only [execGrant]
  rw [hpc]
  rfl

lemma exec_grant_inv {s : SimState K} {e : Event K} {rest : List (Event K)}
    (hI : Inv cfg s) (h : s.events = e :: rest)
    (hnn : StreamNonneg stream) {pid : Nat}
    (hact : e.act = Act.grant pid) :
    Inv cfg (execGrant stream pid { s with events := rest, now := e.time }) := by
  have hmem : e ∈ s.events := by
    rw [h]
    exact List.mem_cons_self _ _
  have hnow : s.now ≤ e.time := hI.ev_future e hmem
  have hq : ∀ q, (e.act = Act.patInit q ∨ e.act = Act.grant q ∨
      e.act = Act.svcTimeout q) → q = pid := by
    intro q hqq
    rcases hqq with h1 | h1 | h1 <;> rw [hact] at h1
    · exact absurd h1 (by simp)
    · injection h1 with h2
      exact h2.symm
    · exact absurd h1 (by simp)
  have hIE := Inv_pop hI h pid hq
  have hpl : pid < s.nextPid := hI.ev_pid e hmem pid (Or.inr (Or.inl hact))
  have hplen : pid < s.allPatients.length := by
    rw [← hI.next_pid]
    exact hpl
  have hid : (getPatient s pid).id = pid := hI.heap_id pid hplen
  have hpos : 0 < evCnt s (Act.grant pid) := evCnt_pos_of_mem hmem hact
  have hloc := Inv_pat_loc hI pid hplen
  have hmain : ∃ i, (getPatient s pid).pc = PC.waitingGrant i ∧ i ≤ 2 ∧
      evCnt s (Act.patInit pid) = 0 ∧ evCnt s (Act.svcTimeout pid) = 0 ∧
      evCnt s (Act.grant pid) = 1 ∧
      outOfPoolsExcept s pid
        (stageAt (getPatient s pid).is_for_ed i) ∧
      (getPool s (stageAt (getPatient s pid).is_for_ed i)).queue.count pid
        = 0 ∧
      (getPool s (stageAt (getPatient s pid).is_for_ed i)).users.count pid
        = 1 := by
    unfold LocInv at hloc
    rcases hpc : (getPatient s pid).pc with _ | j | j | _ <;>
      rw [hpc] at hloc <;> rw [hid] at hloc
    · exact absurd hloc.2.1 (by omega)
    · obtain ⟨hj, he1, he3, hex, hcase⟩ := hloc
      rcases hcase with ⟨_, _, hg0⟩ | ⟨hq0, hu1, hg1⟩
      · exact absurd hg0 (by omega)
      · exact ⟨j, rfl, hj, he1, he3, hg1, hex, hq0, hu1⟩
    · exact absurd hloc.2.2.1 (by omega)
    · exact absurd hloc.1.2.1 (by omega)
  obtain ⟨i, hpc, hi, he1, he3, hg1, hex, hq0, hu1⟩ := hmain
  have hcnt1 := evCnt_pop h (Act.patInit pid)
  rw [if_neg (by rw [hact]; simp)] at hcnt1
  have hcnt2 := evCnt_pop h (Act.grant pid)
  rw [if_pos hact] at hcnt2
  have hcnt3 := evCnt_pop h (Act.svcTimeout pid)
  rw [if_neg (by rw [hact]; simp)] at hcnt3
  have hgsp : getPatient { s with events := rest, now := e.time } pid =
      getPatient s pid := rfl
  rw [execGrant_eq (by rw [hgsp]; exact hpc) stream]
  refine grant_step_aux hIE hplen hi (hnn _) (by omega) (by omega) (by omega)
    hex hq0 hu1 hid rfl rfl ?_
  have hsh0 := (Inv_pat_ts hI pid hplen).toShapeN
  rw [hpc] at hsh0
  have hsh1 : ShapeN (3 * i + 1)
      ({ s with events := rest, now := e.time } : SimState K).now
      (getPatient s pid) := ShapeN_mono hnow hsh0
  refine ShapeN_advance ?_ ?_ (by omega) hsh1
  · rw [tsList_update, tsList_def]
    exact tsListT_setStart _ _ hi _
  · rw [otherBranch_update, otherBranch_def]
    exact otherBranchT_setStart _ _ hi _

lemma execSvcTimeout_eq_step {s' : SimState K} {pid i : Nat}
    (hpc : (getPatient s' pid).pc = PC.inService i)
    (hmem : pid ∈
      (getPool s' (stageAt (getPatient s' pid).is_for_ed i)).users)
    (hlt : i < 2) :
    execSvcTimeout pid s' =
      beginStage pid (i + 1)
        (schedule s'.now 1
          (Act.releasePop (stageAt (getPatient s' pid).is_for_ed i))
          (setPool
            (setPatient s' pid
              { getPatient s' pid with
                  timestamps := Timestamps.setStageExit
                    (stageAt (getPatient s' pid).is_for_ed i) s'.now
                    (getPatient s' pid).timestamps })
            (stageAt (getPatient s' pid).is_for_ed i)
            { getPool s' (stageAt (getPatient s' pid).is_for_ed i) with
                stats :=
                  (getPool s' (stageAt (getPatient s' pid).is_for_ed i)).stats
                    ++ [⟨s'.now,
                      (getPool s'
                        (stageAt (getPatient s' pid).is_for_ed i)).queue.length⟩],
                users :=
                  (getPool s'
                    (stageAt (getPatient s' pid).is_for_ed i)).users.erase pid,
                releaseLog :=
                  (getPool s'
                    (stageAt (getPatient s' pid).is_for_ed i)).releaseLog
                    ++ [pid] })) := by
  simp only [execSvcTimeout]
  rw [hpc]
  dsimp only
  rw [if_pos hlt]
  simp only [getPool_setPatient, setPatient_now]
  rw [poolRelease_mem _ hmem]
  rfl

lemma execSvcTimeout_eq_done {s' : SimState K} {pid i : Nat}
    (hpc : (getPatient s' pid).pc = PC.inService i)
    (hmem : pid ∈
      (getPool s' (stageAt (getPatient s' pid).is_for_ed i)).users)
    (hge : ¬ i < 2) :
    execSvcTimeout pid s' =
      (fun s4 => setPatient s4 pid
        { getPatient s4 pid with
            timestamps :=
              { (getPatient s4 pid).timestamps with exit := some s4.now },
            pc := PC.done })
        (schedule s'.now 1
          (Act.releasePop (stageAt (getPatient s' pid).is_for_ed i))
          (setPool
            (setPatient s' pid
              { getPatient s' pid with
                  timestamps := Timestamps.setStageExit
                    (stageAt (getPatient s' pid).is_for_ed i) s'.now
                    (getPatient s' pid).timestamps })
            (stageAt (getPatient s' pid).is_for_ed i)
            { getPool s' (stageAt (getPatient s' pid).is_for_ed i) with
                stats :=
                  (getPool s' (stageAt (getPatient s' pid).is_for_ed i)).stats
                    ++ [⟨s'.now,
                      (getPool s'
                        (stageAt (getPatient s' pid).is_for_ed i)).queue.length⟩],
                users :=
                  (getPool s'
                    (stageAt (getPatient s' pid).is_for_ed i)).users.erase pid,
                releaseLog :=
                  (getPool s'
                    (stageAt (getPatient s' pid).is_for_ed i)).releaseLog
                    ++ [pid] })) := by
  simp only [execSvcTimeout]
  rw [hpc]
  dsimp only
  rw [if_neg hge]
  simp only [getPool_setPatient, setPatient_now]
  rw [poolRelease_mem _ hmem]
  rfl

lemma release_step_aux {sp : SimState K} {pid : Nat} {pat1 : Patient K}
    {ST : Stage}
    (hIE : InvExcept cfg sp pid)
    (hpid : pid < sp.allPatients.length)
    (hid1 : pat1.id = pid)
    (hca1 : pat1.createdAt = (getPatient sp pid).createdAt)
    (hmem : pid ∈ (getPool sp ST).users) :
    InvExcept cfg
      (schedule sp.now 1 (Act.releasePop ST)
        (setPool (setPatient sp pid pat1) ST
          { getPool sp ST with
              stats := (getPool sp ST).stats ++
                [⟨sp.now, (getPool sp ST).queue.length⟩],
              users := (getPool sp ST).users.erase pid,
              releaseLog := (getPool sp ST).releaseLog ++ [pid] })) pid := by
  have hgp1p : getPatient (setPatient sp pid pat1) pid = pat1 :=
    getPatient_setPatient_self hpid pat1
  have hgp1 : ∀ k, pid ≠ k →
      getPatient (setPatient sp pid pat1) k = getPatient sp k :=
    fun k hk => getPatient_setPatient_ne sp hk pat1
  refine ⟨?_, ?_, ?_, ?_, ?_, ?_, ?_, ?_, ?_, ?_, ?_, ?_, ?_, hIE.pat_nodup⟩
  · exact sorted_schedule hIE.ev_sorted _ _ _
  · intro x hx
    rcases mem_schedule_events.mp hx with hx | hx
    · subst hx
      simp only [schedule_now, setPool_now, setPatient_now]
      exact le_refl _
    · simp only [schedule_now, setPool_now, setPatient_now]
      exact hIE.ev_future x hx
  · intro x hx q hqq
    rcases mem_schedule_events.mp hx with hx | hx
    · subst hx
      rcases hqq with hqq | hqq | hqq <;> simp at hqq
    · exact hIE.ev_pid x hx q hqq
  · intro k hk
    have hk0 : k < sp.allPatients.length := by
      simpa using hk
    rcases eq_or_ne k pid with rfl | hkp
    · simp only [getPatient_schedule, getPatient_setPool, hgp1p]
      exact hid1
    · simp only [getPatient_schedule, getPatient_setPool,
        hgp1 k (Ne.symm hkp)]
      exact hIE.heap_id k hk0
  · simpa using hIE.next_pid
  · intro k hk
    have hk0 : k < sp.allPatients.length := by
      simpa using hk
    rcases eq_or_ne k pid with rfl | hkp
    · simp only [schedule_now, setPool_now, setPatient_now,
        getPatient_schedule, getPatient_setPool, hgp1p, hca1]
      exact hIE.created_le k hk0
    · simp only [schedule_now, setPool_now, setPatient_now,
        getPatient_schedule, getPatient_setPool, hgp1 k (Ne.symm hkp)]
      exact hIE.created_le k hk0
  · intro q
    rcases eq_or_ne q pid with rfl | hqp
    · simpa only [schedule_patients, setPool_patients, setPatient_patients,
        schedule_allPatients, setPool_allPatients, setPatient_allPatients,
        List.length_set, getPatient_schedule, getPatient_setPool, hgp1p,
        hca1] using hIE.retained q
    · simpa only [schedule_patients, setPool_patients, setPatient_patients,
        schedule_allPatients, setPool_allPatients, setPatient_allPatients,
        List.length_set, getPatient_schedule, getPatient_setPool,
        hgp1 q (Ne.symm hqp)] using hIE.retained q
  · intro st
    rcases eq_or_ne st ST with rfl | hst
    · simp only [schedule_now, setPool_now, setPatient_now, getPool_schedule,
        getPool_setPool_same]
      have h2 := PoolInv_release (hIE.pools st) pid
      rw [poolRelease_mem sp.now hmem] at h2
      exact h2
    · simp only [schedule_now, setPool_now, setPatient_now, getPool_schedule,
        getPool_setPool_ne _ _ hst, getPool_setPatient]
      exact hIE.pools st
  · intro st
    rcases eq_or_ne st ST with rfl | hst
    · simp only [getPool_schedule, getPool_setPool_same, schedule_nextPid,
        setPool_nextPid, setPatient_nextPid]
      constructor
      · intro q hq
        exact (hIE.pool_pid st).1 q hq
      · intro q hq
        exact (hIE.pool_pid st).2 q (List.mem_of_mem_erase hq)
    · simp only [getPool_schedule, getPool_setPool_ne _ _ hst,
        getPool_setPatient, schedule_nextPid, setPool_nextPid,
        setPatient_nextPid]
      exact hIE.pool_pid st
  · refine schedule_negDelay_false ?_ (by simp) _ _
    simp only [setPool_negDelay, setPatient_negDelay]
    exact hIE.no_neg
  · simp only [schedule_badRelease, setPool_badRelease,
      setPatient_badRelease]
    exact hIE.no_bad
  · intro k hk hkp
    have hk0 : k < sp.allPatients.length := by
      simpa using hk
    simp only [schedule_now, setPool_now, setPatient_now, getPatient_schedule,
      getPatient_setPool, hgp1 k (Ne.symm hkp)]
    exact hIE.pat_ts k hk0 hkp
  · intro k hk hkp
    have hk0 : k < sp.allPatients.length := by
      simpa using hk
    simp only [getPatient_schedule, getPatient_setPool,
      hgp1 k (Ne.symm hkp)]
    have hidk : (getPatient sp k).id = k := hIE.heap_id k hk0
    refine @LocInv_of_counts K _ sp _ _ ?_ ?_ ?_ ?_ ?_
      (hIE.pat_loc k hk0 hkp)
    · rw [evCnt_schedule_ne _ _ (by simp) _, evCnt_setPool, evCnt_setPatient]
    · rw [evCnt_schedule_ne _ _ (by simp) _, evCnt_setPool, evCnt_setPatient]
    · rw [evCnt_schedule_ne _ _ (by simp) _, evCnt_setPool, evCnt_setPatient]
    · intro st'
      rcases eq_or_ne st' ST with rfl | hst'
      · simp only [getPool_schedule, getPool_setPool_same]
      · simp only [getPool_schedule, getPool_setPool_ne _ _ hst',
          getPool_setPatient]
    · intro st'
      rcases eq_or_ne st' ST with rfl | hst'
      · simp only [getPool_schedule, getPool_setPool_same]
        show ((getPool sp st').users.erase pid).count
            (getPatient sp k).id = (getPool sp st').users.count
            (getPatient sp k).id
        rw [hidk]
        exact List.count_erase_of_ne hkp _
      · simp only [getPool_schedule, getPool_setPool_ne _ _ hst',
          getPool_setPatient]

lemma done_step_aux {S4 : SimState K} {pid : Nat} {pat2 : Patient K}
    (hIE : InvExcept cfg S4 pid)
    (hpid : pid < S4.allPatients.length)
    (hid2 : pat2.id = pid)
    (hca2 : pat2.createdAt = (getPatient S4 pid).createdAt)
    (hpc2 : pat2.pc = PC.done)
    (hsh : ShapeN 10 S4.now pat2)
    (he1 : evCnt S4 (Act.patInit pid) = 0)
    (he2 : evCnt S4 (Act.grant pid) = 0)
    (he3 : evCnt S4 (Act.svcTimeout pid) = 0)
    (hout : outOfPools S4 pid) :
    Inv cfg (setPatient S4 pid pat2) := by
  have hgp1p : getPatient (setPatient S4 pid pat2) pid = pat2 :=
    getPatient_setPatient_self hpid pat2
  have hgp1 : ∀ k, pid ≠ k →
      getPatient (setPatient S4 pid pat2) k = getPatient S4 k :=
    fun k hk => getPatient_setPatient_ne S4 hk pat2
  refine ⟨hIE.ev_sorted, hIE.ev_future, hIE.ev_pid, ?_, ?_, ?_, ?_, ?_, ?_,
    hIE.no_neg, hIE.no_bad, ?_, ?_, hIE.pat_nodup⟩
  · intro k hk
    have hk0 : k < S4.allPatients.length := by
      simpa using hk
    rcases eq_or_ne k pid with rfl | hkp
    · rw [hgp1p]
      exact hid2
    · rw [hgp1 k (Ne.symm hkp)]
      exact hIE.heap_id k hk0
  · simpa using hIE.next_pid
  · intro k hk
    have hk0 : k < S4.allPatients.length := by
      simpa using hk
    rcases eq_or_ne k pid with rfl | hkp
    · simp only [setPatient_now, hgp1p, hca2]
      exact hIE.created_le k hk0
    · simp only [setPatient_now, hgp1 k (Ne.symm hkp)]
      exact hIE.created_le k hk0
  · intro q
    rcases eq_or_ne q pid with rfl | hqp
    · simpa only [setPatient_patients, setPatient_allPatients,
        List.length_set, hgp1p, hca2] using hIE.retained q
    · simpa only [setPatient_patients, setPatient_allPatients,
        List.length_set, hgp1 q (Ne.symm hqp)] using hIE.retained q
  · intro st
    exact hIE.pools st
  · intro st
    exact hIE.pool_pid st
  · intro k hk _
    have hk0 : k < S4.allPatients.length := by
      simpa using hk
    rcases eq_or_ne k pid with rfl | hkp
    · simp only [setPatient_now, hgp1p]
      refine TsShape_ofShapeN ?_
      rw [hpc2]
      show ShapeN 10 S4.now pat2
      exact hsh
    · simp only [setPatient_now, hgp1 k (Ne.symm hkp)]
      exact hIE.pat_ts k hk0 hkp
  · intro k hk _
    have hk0 : k < S4.allPatients.length := by
      simpa using hk
    rcases eq_or_ne k pid with rfl | hkp
    · rw [hgp1p]
      refine LocInv_done hpc2 ?_ ?_ ?_ ?_
      · rw [hid2]
        exact he1
      · rw [hid2]
        exact he2
      · rw [hid2]
        exact he3
      · intro st
        rw [hid2]
        exact hout st
    · rw [hgp1 k (Ne.symm hkp)]
      refine @LocInv_of_counts K _ S4 _ _ rfl rfl rfl (fun st => rfl)
        (fun st => rfl) (hIE.pat_loc k hk0 hkp)

lemma getPatient_after_sched_pool (t : K) (pr : Nat) (a : Act)
    {sp : SimState K} {pid : Nat} (hpid : pid < sp.allPatients.length)
    (pat1 : Patient K) (ST : Stage) (REC : PoolState K) :
    getPatient (schedule t pr a (setPool (setPatient sp pid pat1) ST REC))
      pid = pat1 := by
  simp only [getPatient_schedule, getPatient_setPool]
  exact getPatient_setPatient_self hpid pat1

lemma evCnt_after_sched_pool (t : K) (pr : Nat) {a b : Act} (hab : a ≠ b)
    (sp : SimState K) (pid : Nat) (pat1 : Patient K) (ST : Stage)
    (REC : PoolState K) :
    evCnt (schedule t pr a (setPool (setPatient sp pid pat1) ST REC)) b =
      evCnt sp b := by
  rw [evCnt_schedule_ne _ _ hab _, evCnt_setPool, evCnt_setPatient]

lemma getPool_after_sched_pool (t : K) (pr : Nat) (a : Act)
    (sp : SimState K) (pid : Nat) (pat1 : Patient K) (ST : Stage)
    (REC : PoolState K) (st : Stage) :
    getPool (schedule t pr a (setPool (setPatient sp pid pat1) ST REC)) st =
      if st = ST then REC else getPool sp st := by
  rw [getPool_schedule, getPool_setPool]
  rcases eq_or_ne st ST with rfl | hst
  · rw [if_pos rfl, if_pos rfl]
  · rw [if_neg hst, if_neg hst, getPool_setPatient]

lemma exec_svcTimeout_inv {s : SimState K} {e : Event K}
    {rest : List (Event K)}
    (hI : Inv cfg s) (h : s.events = e :: rest) {pid : Nat}
    (hact : e.act = Act.svcTimeout pid) :
    Inv cfg (execSvcTimeout pid { s with events := rest, now := e.time }) := by
  have hmem : e ∈ s.events := by
    rw [h]
    exact List.mem_cons_self _ _
  have hnow : s.now ≤ e.time := hI.ev_future e hmem
  have hq : ∀ q, (e.act = Act.patInit q ∨ e.act = Act.grant q ∨
      e.act = Act.svcTimeout q) → q = pid := by
    intro q hqq
    rcases hqq with h1 | h1 | h1 <;> rw [hact] at h1
    · exact absurd h1 (by simp)
    · exact absurd h1 (by simp)
    · injection h1 with h2
      exact h2.symm
  have hIE := Inv_pop hI h pid hq
  have hpl : pid < s.nextPid :=
    hI.ev_pid e hmem pid (Or.inr (Or.inr hact))
  have hplen : pid < s.allPatients.length := by
    rw [← hI.next_pid]
    exact hpl
  have hid : (getPatient s pid).id = pid := hI.heap_id pid hplen
  have hpos : 0 < evCnt s (Act.svcTimeout pid) := evCnt_pos_of_mem hmem hact
  have hloc := Inv_pat_loc hI pid hplen
  have hmain : ∃ i, (getPatient s pid).pc = PC.inService i ∧ i ≤ 2 ∧
      evCnt s (Act.patInit pid) = 0 ∧ evCnt s (Act.grant pid) = 0 ∧
      evCnt s (Act.svcTimeout pid) = 1 ∧
      outOfPoolsExcept s pid (stageAt (getPatient s pid).is_for_ed i) ∧
      (getPool s (stageAt (getPatient s pid).is_for_ed i)).queue.count pid
        = 0 ∧
      (getPool s (stageAt (getPatient s pid).is_for_ed i)).users.count pid
        = 1 := by
    unfold LocInv at hloc
    rcases hpc : (getPatient s pid).pc with _ | j | j | _ <;>
      rw [hpc] at hloc <;> rw [hid] at hloc
    · exact absurd hloc.2.2.1 (by omega)
    · exact absurd hloc.2.2.1 (by omega)
    · obtain ⟨hj, he1, he2, he3, hex, hq0, hu1⟩ := hloc
      exact ⟨j, rfl, hj, he1, he2, he3, hex, hq0, hu1⟩
    · exact absurd hloc.1.2.2 (by omega)
  obtain ⟨i, hpc, hi, he1, he2, he3, hex, hq0, hu1⟩ := hmain
  have husers : pid ∈
      (getPool s (stageAt (getPatient s pid).is_for_ed i)).users := by
    rw [← List.count_pos_iff, hu1]
    omega
  have hcnt1 := evCnt_pop h (Act.patInit pid)
  rw [if_neg (by rw [hact]; simp)] at hcnt1
  have hcnt2 := evCnt_pop h (Act.grant pid)
  rw [if_neg (by rw [hact]; simp)] at hcnt2
  have hcnt3 := evCnt_pop h (Act.svcTimeout pid)
  rw [if_pos hact] at hcnt3
  have hgsp : getPatient { s with events := rest, now := e.time } pid =
      getPatient s pid := rfl
  have hpc2 : (getPatient { s with events := rest, now := e.time } pid).pc =
      PC.inService i := by
    rw [hgsp]
    exact hpc
  have hmem2 : pid ∈ (getPool { s with events := rest, now := e.time }
      (stageAt (getPatient { s with events := rest, now := e.time }
        pid).is_for_ed i)).users := husers
  have hplen2 : pid < ({ s with events := rest, now := e.time } : SimState K).allPatients.length := hplen
  have hIE4 := @release_step_aux K _ cfg
    { s with events := rest, now := e.time } pid
    { getPatient s pid with
        timestamps := Timestamps.setStageExit
          (stageAt (getPatient s pid).is_for_ed i) e.time
          (getPatient s pid).timestamps }
    (stageAt (getPatient s pid).is_for_ed i)
    hIE hplen2 hid rfl hmem2
  have hsh0 := (Inv_pat_ts hI pid hplen).toShapeN
  rw [hpc] at hsh0
  have hsh1 : ShapeN (3 * i + 2)
      ({ s with events := rest, now := e.time } : SimState K).now
      (getPatient s pid) := ShapeN_mono hnow hsh0
  have hsh2 : ShapeN (3 * i + 3)
      ({ s with events := rest, now := e.time } : SimState K).now
      { getPatient s pid with
          timestamps := Timestamps.setStageExit
            (stageAt (getPatient s pid).is_for_ed i) e.time
            (getPatient s pid).timestamps } := by
    refine ShapeN_advance ?_ ?_ (by omega) hsh1
    · rw [tsList_update_ts, tsList_def]
      exact tsListT_setStageExit _ _ hi _
    · rw [otherBranch_update_ts, otherBranch_def]
      exact otherBranchT_setStageExit _ _ hi _
  by_cases hlt : i < 2
  · rw [execSvcTimeout_eq_step hpc2 hmem2 hlt]
    refine beginStage_inv hIE4 (by simpa using hplen2) (by omega) ?_ ?_ ?_
      ?_ ?_
    · rw [evCnt_after_sched_pool _ _ (by simp) _ _ _ _ _]
      omega
    · rw [evCnt_after_sched_pool _ _ (by simp) _ _ _ _ _]
      omega
    · rw [evCnt_after_sched_pool _ _ (by simp) _ _ _ _ _]
      omega
    · intro st
      rw [getPool_after_sched_pool _ _ _ _ _ _ _ _ _]
      rcases eq_or_ne st (stageAt (getPatient
          { s with events := rest, now := e.time } pid).is_for_ed i) with
        rfl | hst
      · rw [if_pos rfl]
        constructor
        · exact hq0
        · show ((getPool s (stageAt (getPatient s pid).is_for_ed
            i)).users.erase pid).count pid = 0
          rw [List.count_erase_self, hu1]
      · rw [if_neg hst]
        exact hex st hst
    · rw [getPatient_after_sched_pool _ _ _ hplen2 _ _ _]
      show ShapeN (3 * (i + 1))
        ({ s with events := rest, now := e.time } : SimState K).now _
      have h33 : 3 * (i + 1) = 3 * i + 3 := by
        omega
      rw [h33]
      exact hsh2
  · have hi2 : i = 2 := by
      omega
    subst hi2
    rw [execSvcTimeout_eq_done hpc2 hmem2 hlt]
    dsimp only
    refine done_step_aux hIE4 (by simpa using hplen2) ?_ rfl rfl ?_ ?_ ?_
      ?_ ?_
    · rw [getPatient_after_sched_pool _ _ _ hplen2 _ _ _]
      exact hid
    · rw [getPatient_after_sched_pool _ _ _ hplen2 _ _ _]
      refine ShapeN_advance ?_ ?_ (by omega) hsh2
      · rw [tsList_update, tsList_def]
        exact tsListT_setFinalExit _ _ _
      · rw [otherBranch_update, otherBranch_def]
        exact otherBranchT_setFinalExit _ _ _
    · rw [evCnt_after_sched_pool _ _ (by simp) _ _ _ _ _]
      omega
    · rw [evCnt_after_sched_pool _ _ (by simp) _ _ _ _ _]
      omega
    · rw [evCnt_after_sched_pool _ _ (by simp) _ _ _ _ _]
      omega
    · intro st
      rw [getPool_after_sched_pool _ _ _ _ _ _ _ _ _]
      rcases eq_or_ne st (stageAt (getPatient
          { s with events := rest, now := e.time } pid).is_for_ed 2) with
        rfl | hst
      · rw [if_pos rfl]
        constructor
        · exact hq0
        · show ((getPool s (stageAt (getPatient s pid).is_for_ed
            2)).users.erase pid).count pid = 0
          rw [List.count_erase_self, hu1]
      · rw [if_neg hst]
        exact hex st hst

lemma exec_releasePop_inv {s : SimState K} {e : Event K}
    {rest : List (Event K)}
    (hI : Inv cfg s) (h : s.events = e :: rest) {st : Stage}
    (hact : e.act = Act.releasePop st) :
    Inv cfg (execReleasePop st { s with events := rest, now := e.time }) := by
  have hq : ∀ q, (e.act = Act.patInit q ∨ e.act = Act.grant q ∨
      e.act = Act.svcTimeout q) → q = s.nextPid := by
    intro q hqq
    rcases hqq with h1 | h1 | h1 <;> rw [hact] at h1 <;>
      exact absurd h1 (by simp)
  have hIE := Inv_pop hI h s.nextPid hq
  exact runTrigger_inv hIE st

lemma evCnt_eq_zero {s : SimState K} {a : Act}
    (h : ∀ e ∈ s.events, e.act ≠ a) : evCnt s a = 0 := by
  unfold evCnt
  rw [List.countP_eq_zero]
  intro e he
  simpa using h e he

lemma execGenArrive_eq_warm {sp : SimState K}
    (hw : sp.now < cfg.warm_up_time) :
    execGenArrive cfg stream sp =
      schedule (sp.now + stream (sp.rndIdx + 1)) 1 Act.genArrive
        (schedule sp.now 0 (Act.patInit sp.nextPid)
          { sp with
              rndIdx := sp.rndIdx + 2,
              allPatients := sp.allPatients ++
                [⟨sp.nextPid, decide (stream sp.rndIdx < cfg.patient_p_ed),
                  sp.now, {}, PC.pendingInit⟩],
              nextPid := sp.nextPid + 1 }) := by
  simp only [execGenArrive, nextDraw]
  rw [if_pos hw]
  rfl

lemma execGenArrive_eq_ret {sp : SimState K}
    (hw : ¬ sp.now < cfg.warm_up_time) :
    execGenArrive cfg stream sp =
      schedule (sp.now + stream (sp.rndIdx + 1)) 1 Act.genArrive
        (schedule sp.now 0 (Act.patInit sp.nextPid)
          { sp with
              rndIdx := sp.rndIdx + 2,
              allPatients := sp.allPatients ++
                [⟨sp.nextPid, decide (stream sp.rndIdx < cfg.patient_p_ed),
                  sp.now, {}, PC.pendingInit⟩],
              nextPid := sp.nextPid + 1,
              patients := sp.patients ++ [sp.nextPid] }) := by
  simp only [execGenArrive, nextDraw]
  rw [if_neg hw]
  rfl

lemma genArrive_aux {sp : SimState K} (hS : StreamNonneg stream)
    (hI : Inv cfg sp) (ps1 : List Nat)
    (hps : ∀ q, q ∈ ps1 ↔ (q < sp.allPatients.length + 1 ∧
      cfg.warm_up_time ≤ (if q = sp.allPatients.length then sp.now
        else (getPatient sp q).createdAt)))
    (hnd1 : ps1.Nodup)
    (PAT1 : Patient K) (hP_id : PAT1.id = sp.nextPid)
    (hP_ca : PAT1.createdAt = sp.now)
    (hP_ts : PAT1.timestamps = {}) (hP_pc : PAT1.pc = PC.pendingInit)
    (SB : SimState K)
    (hSB : SB = { sp with
        rndIdx := sp.rndIdx + 2,
        allPatients := sp.allPatients ++ [PAT1],
        nextPid := sp.nextPid + 1,
        patients := ps1 }) :
    Inv cfg
      (schedule (sp.now + stream (sp.rndIdx + 1)) 1 Act.genArrive
        (schedule sp.now 0 (Act.patInit sp.nextPid) SB)) := by
  have hB_now : SB.now = sp.now := by
    rw [hSB]
  have hB_events : SB.events = sp.events := by
    rw [hSB]
  have hB_nextPid : SB.nextPid = sp.nextPid + 1 := by
    rw [hSB]
  have hB_len : SB.allPatients.length = sp.allPatients.length + 1 := by
    rw [hSB]
    simp
  have hB_get_old : ∀ k, k < sp.allPatients.length →
      getPatient SB k = getPatient sp k := by
    intro k hk
    rw [hSB]
    exact getPatient_append_old hk _
  have hB_get_new : getPatient SB sp.allPatients.length = PAT1 := by
    rw [hSB]
    exact getPatient_append_new sp PAT1
  have hB_pool : ∀ st, getPool SB st = getPool sp st := by
    intro st
    rw [hSB]
    rfl
  have hB_cnt : ∀ a, evCnt SB a = evCnt sp a := by
    intro a
    rw [hSB]
    rfl
  have hB_pats : SB.patients = ps1 := by
    rw [hSB]
  have hB_neg : SB.negDelay = sp.negDelay := by
    rw [hSB]
  have hB_bad : SB.badRelease = sp.badRelease := by
    rw [hSB]
  have hf1 : evCnt sp (Act.patInit sp.nextPid) = 0 := by
    refine evCnt_eq_zero fun x hx hc => ?_
    exact absurd (hI.ev_pid x hx sp.nextPid (Or.inl hc)) (lt_irrefl _)
  have hf2 : evCnt sp (Act.grant sp.nextPid) = 0 := by
    refine evCnt_eq_zero fun x hx hc => ?_
    exact absurd (hI.ev_pid x hx sp.nextPid (Or.inr (Or.inl hc)))
      (lt_irrefl _)
  have hf3 : evCnt sp (Act.svcTimeout sp.nextPid) = 0 := by
    refine evCnt_eq_zero fun x hx hc => ?_
    exact absurd (hI.ev_pid x hx sp.nextPid (Or.inr (Or.inr hc)))
      (lt_irrefl _)
  have hfp : ∀ st, (getPool sp st).queue.count sp.nextPid = 0 ∧
      (getPool sp st).users.count sp.nextPid = 0 := by
    intro st
    constructor
    · rw [List.count_eq_zero]
      intro hmem
      exact absurd ((hI.pool_pid st).1 _ hmem) (lt_irrefl _)
    · rw [List.count_eq_zero]
      intro hmem
      exact absurd ((hI.pool_pid st).2 _ hmem) (lt_irrefl _)
  refine ⟨?_, ?_, ?_, ?_, ?_, ?_, ?_, ?_, ?_, ?_, ?_, ?_, ?_, ?_⟩
  · exact sorted_schedule
      (sorted_schedule (by rw [hB_events]; exact hI.ev_sorted) _ _ _) _ _ _
  · intro x hx
    simp only [schedule_now]
    rw [hB_now]
    rcases mem_schedule_events.mp hx with hx | hx
    · subst hx
      exact le_add_of_nonneg_right (hS _)
    · rcases mem_schedule_events.mp hx with hx | hx
      · subst hx
        exact le_refl _
      · rw [hB_events] at hx
        exact hI.ev_future x hx
  · intro x hx q hqq
    simp only [schedule_nextPid]
    rw [hB_nextPid]
    rcases mem_schedule_events.mp hx with hx | hx
    · subst hx
      rcases hqq with h1 | h1 | h1 <;> simp at h1
    · rcases mem_schedule_events.mp hx with hx | hx
      · subst hx
        rcases hqq with h1 | h1 | h1 <;> simp at h1
        omega
      · rw [hB_events] at hx
        have := hI.ev_pid x hx q hqq
        omega
  · intro k hk
    simp only [schedule_allPatients] at hk
    rw [hB_len] at hk
    simp only [getPatient_schedule]
    rcases Nat.lt_succ_iff_lt_or_eq.mp hk with hk2 | hk2
    · rw [hB_get_old k hk2]
      exact hI.heap_id k hk2
    · subst hk2
      rw [hB_get_new, hP_id, hI.next_pid]
  · simp only [schedule_nextPid, schedule_allPatients]
    rw [hB_nextPid, hB_len, hI.next_pid]
  · intro k hk
    simp only [schedule_allPatients] at hk
    rw [hB_len] at hk
    simp only [getPatient_schedule, schedule_now]
    rw [hB_now]
    rcases Nat.lt_succ_iff_lt_or_eq.mp hk with hk2 | hk2
    · rw [hB_get_old k hk2]
      exact hI.created_le k hk2
    · subst hk2
      rw [hB_get_new, hP_ca]
  · intro q
    simp only [schedule_patients, schedule_allPatients, getPatient_schedule]
    rw [hB_pats, hB_len, hps q]
    constructor
    · rintro ⟨h1, h2⟩
      refine ⟨h1, ?_⟩
      rcases eq_or_ne q sp.allPatients.length with rfl | hne
      · rw [hB_get_new, hP_ca]
        rw [if_pos rfl] at h2
        exact h2
      · rw [hB_get_old q (by omega)]
        rw [if_neg hne] at h2
        exact h2
    · rintro ⟨h1, h2⟩
      refine ⟨h1, ?_⟩
      rcases eq_or_ne q sp.allPatients.length with rfl | hne
      · rw [if_pos rfl]
        rw [hB_get_new, hP_ca] at h2
        exact h2
      · rw [if_neg hne]
        rw [hB_get_old q (by omega)] at h2
        exact h2
  · intro st
    simp only [getPool_schedule, schedule_now]
    rw [hB_pool st, hB_now]
    exact hI.pools st
  · intro st
    simp only [getPool_schedule, schedule_nextPid]
    rw [hB_pool st, hB_nextPid]
    refine ⟨fun q hq2 => ?_, fun q hq2 => ?_⟩
    · have := (hI.pool_pid st).1 q hq2
      omega
    · have := (hI.pool_pid st).2 q hq2
      omega
  · refine schedule_negDelay_false
      (schedule_negDelay_false ?_ (le_of_eq hB_now) 0 _) ?_ 1 _
    · rw [hB_neg]
      exact hI.no_neg
    · simp only [schedule_now]
      rw [hB_now]
      exact le_add_of_nonneg_right (hS _)
  · simp only [schedule_badRelease]
    rw [hB_bad]
    exact hI.no_bad
  · intro k hk _
    simp only [schedule_allPatients] at hk
    rw [hB_len] at hk
    simp only [getPatient_schedule, schedule_now]
    rw [hB_now]
    rcases Nat.lt_succ_iff_lt_or_eq.mp hk with hk2 | hk2
    · rw [hB_get_old k hk2]
      exact Inv_pat_ts hI k hk2
    · subst hk2
      rw [hB_get_new]
      refine ⟨?_, ⟨[], ?_, ?_, ?_, ?_⟩⟩
      · rw [otherBranch_def, hP_ts]
        exact otherBranchT_empty _
      · rw [tsList_def, hP_ts, hP_pc, tsListT_empty]
        rfl
      · rw [hP_pc]
        rfl
      · exact List.Pairwise.nil
      · intro v hv
        exact absurd hv (List.not_mem_nil v)
  · intro k hk _
    simp only [schedule_allPatients] at hk
    rw [hB_len] at hk
    simp only [getPatient_schedule]
    rcases Nat.lt_succ_iff_lt_or_eq.mp hk with hk2 | hk2
    · rw [hB_get_old k hk2]
      have hkid : (getPatient sp k).id = k := hI.heap_id k hk2
      have hkn : (getPatient sp k).id ≠ sp.nextPid := by
        rw [hkid, hI.next_pid]
        omega
      have hne2 : Act.patInit sp.nextPid ≠
          Act.patInit (getPatient sp k).id := by
        simp only [ne_eq, Act.patInit.injEq]
        exact fun hc => hkn hc.symm
      refine LocInv_of_counts ?_ ?_ ?_ ?_ ?_ (Inv_pat_loc hI k hk2)
      · rw [evCnt_schedule_ne _ _ (by simp) _,
          evCnt_schedule_ne _ _ hne2 _, hB_cnt]
      · rw [evCnt_schedule_ne _ _ (by simp) _,
          evCnt_schedule_ne _ _ (by simp) _, hB_cnt]
      · rw [evCnt_schedule_ne _ _ (by simp) _,
          evCnt_schedule_ne _ _ (by simp) _, hB_cnt]
      · intro st
        simp only [getPool_schedule]
        rw [hB_pool st]
      · intro st
        simp only [getPool_schedule]
        rw [hB_pool st]
    · subst hk2
      rw [hB_get_new]
      refine LocInv_pendingInit hP_pc ?_ ?_ ?_ ?_
      · rw [hP_id, evCnt_schedule_ne _ _ (by simp) _, evCnt_schedule,
          hB_cnt, hf1]
        simp
      · rw [hP_id, evCnt_schedule_ne _ _ (by simp) _,
          evCnt_schedule_ne _ _ (by simp) _, hB_cnt]
        exact hf2
      · rw [hP_id, evCnt_schedule_ne _ _ (by simp) _,
          evCnt_schedule_ne _ _ (by simp) _, hB_cnt]
        exact hf3
      · intro st
        simp only [getPool_schedule]
        rw [hB_pool st, hP_id]
        exact hfp st
  · simp only [schedule_patients]
    rw [hB_pats]
    exact hnd1

lemma exec_genArrive_inv {s : SimState K} {e : Event K}
    {rest : List (Event K)}
    (hI : Inv cfg s) (h : s.events = e :: rest)
    (hnn : StreamNonneg stream)
    (hact : e.act = Act.genArrive) :
    Inv cfg (execGenArrive cfg stream
      { s with events := rest, now := e.time }) := by
  have hq : ∀ q, (e.act = Act.patInit q ∨ e.act = Act.grant q ∨
      e.act = Act.svcTimeout q) → q = s.nextPid := by
    intro q hqq
    rcases hqq with h1 | h1 | h1 <;> rw [hact] at h1 <;>
      exact absurd h1 (by simp)
  have hIE : Inv cfg ({ s with events := rest, now := e.time } : SimState K) :=
    Inv_pop hI h s.nextPid hq
  by_cases hw : ({ s with events := rest, now := e.time } : SimState K).now <
      cfg.warm_up_time
  · rw [execGenArrive_eq_warm hw]
    refine genArrive_aux hnn hIE _ ?_ hIE.pat_nodup _ rfl rfl rfl rfl _ rfl
    intro q
    constructor
    · intro hmemq
      have h2 := (hIE.retained q).mp hmemq
      refine ⟨by omega, ?_⟩
      rw [if_neg (by omega)]
      exact h2.2
    · rintro ⟨h1, h2⟩
      rcases eq_or_ne q ({ s with events := rest, now := e.time } : SimState K).allPatients.length with rfl | hne
      · rw [if_pos rfl] at h2
        exact absurd hw (not_lt.mpr h2)
      · rw [if_neg hne] at h2
        exact (hIE.retained q).mpr ⟨by omega, h2⟩
  · rw [execGenArrive_eq_ret hw]
    refine genArrive_aux hnn hIE _ ?_ ?_ _ rfl rfl rfl rfl _ rfl
    · intro q
      rw [List.mem_append, List.mem_singleton]
      constructor
      · intro hmemq
        rcases hmemq with hmemq | hmemq
        · have h2 := (hIE.retained q).mp hmemq
          refine ⟨by omega, ?_⟩
          rw [if_neg (by omega)]
          exact h2.2
        · subst hmemq
          refine ⟨lt_of_le_of_lt (le_of_eq hIE.next_pid)
            (Nat.lt_succ_self _), ?_⟩
          rw [if_pos hIE.next_pid]
          exact not_lt.mp hw
      · rintro ⟨h1, h2⟩
        rcases eq_or_ne q ({ s with events := rest, now := e.time } : SimState K).allPatients.length with rfl | hne
        · right
          exact hIE.next_pid.symm
        · left
          rw [if_neg hne] at h2
          exact (hIE.retained q).mpr ⟨by omega, h2⟩
    · refine List.Nodup.append hIE.pat_nodup (List.nodup_singleton _) ?_
      intro a ha hb
      rw [List.mem_singleton] at hb
      subst hb
      have h2 := ((hIE.retained _).mp ha).1
      rw [hIE.next_pid] at h2
      exact absurd h2 (lt_irrefl _)

lemma stepOnce_inv {s : SimState K} (hnn : StreamNonneg stream)
    (hI : Inv cfg s) : Inv cfg (stepOnce cfg stream s) := by
  rcases hev : s.events with _ | ⟨e, rest⟩
  · have hchar : stepOnce cfg stream s = s := by
      unfold stepOnce
      rw [hev]
    rw [hchar]
    exact hI
  · have hchar : stepOnce cfg stream s =
        if cfg.warm_up_time + cfg.simulation_time ≤ e.time then s
        else execEvent cfg stream e { s with events := rest, now := e.time } := by
      unfold stepOnce
      rw [hev]
    rw [hchar]
    by_cases hstop : cfg.warm_up_time + cfg.simulation_time ≤ e.time
    · rw [if_pos hstop]
      exact hI
    · rw [if_neg hstop]
      rcases hact : e.act with _ | pid | pid | pid | st
      · unfold execEvent
        rw [hact]
        exact exec_genArrive_inv hI hev hnn hact
      · unfold execEvent
        rw [hact]
        exact exec_patInit_inv hI hev hact
      · unfold execEvent
        rw [hact]
        exact exec_grant_inv hI hev hnn hact
      · unfold execEvent
        rw [hact]
        exact exec_svcTimeout_inv hI hev hact
      · unfold execEvent
        rw [hact]
        exact exec_releasePop_inv hI hev hact

lemma Inv_init (ri : Nat) : Inv cfg (initSim cfg ri) := by
  refine ⟨?_, ?_, ?_, ?_, rfl, ?_, ?_, ?_, ?_, ?_, rfl, ?_, ?_,
    List.nodup_nil⟩
  · exact sorted_schedule List.sorted_nil _ _ _
  · intro x hx
    rcases mem_schedule_events.mp hx with hx | hx
    · subst hx
      exact le_refl _
    · exact absurd hx (List.not_mem_nil x)
  · intro x hx q hqq
    rcases mem_schedule_events.mp hx with hx | hx
    · subst hx
      rcases hqq with h1 | h1 | h1 <;> simp at h1
    · exact absurd hx (List.not_mem_nil x)
  · intro k hk
    exact absurd hk (Nat.not_lt_zero k)
  · intro k hk
    exact absurd hk (Nat.not_lt_zero k)
  · intro q
    constructor
    · intro hq
      exact absurd hq (List.not_mem_nil q)
    · rintro ⟨h1, _⟩
      exact absurd h1 (Nat.not_lt_zero q)
  · intro st
    exact ⟨Nat.zero_le _, rfl, List.Perm.refl _, List.Pairwise.nil,
      fun d hd => absurd hd (List.not_mem_nil d)⟩
  · intro st
    exact ⟨fun q hq => absurd hq (List.not_mem_nil q),
      fun q hq => absurd hq (List.not_mem_nil q)⟩
  · exact schedule_negDelay_false rfl (le_refl _) 0 Act.genArrive
  · intro k hk _
    exact absurd hk (Nat.not_lt_zero k)
  · intro k hk _
    exact absurd hk (Nat.not_lt_zero k)

lemma runSim_inv (hnn : StreamNonneg stream) {s : SimState K}
    (hI : Inv cfg s) (fuel : Nat) : Inv cfg (runSim cfg stream fuel s) := by
  induction fuel generalizing s with
  | zero => exact hI
  | succ n ih =>
    have h1 : runSim cfg stream (n + 1) s =
        runSim cfg stream n (stepOnce cfg stream s) := by
      unfold runSim
      exact Function.iterate_succ_apply _ _ _
    rw [h1]
    exact ih (stepOnce_inv hnn hI)

lemma runSim_init_inv (hnn : StreamNonneg stream) (ri fuel : Nat) :
    Inv cfg (runSim cfg stream fuel (initSim cfg ri)) :=
  runSim_inv hnn (Inv_init ri) fuel

lemma cStream_nonneg : StreamNonneg cStream := by
  intro n
  unfold cStream
  split <;> decide

lemma wStream_nonneg : StreamNonneg wStream := by
  intro n
  show (0 : Int) ≤ 7
  decide

lemma getD_pipeline (l : List K) (m i : Nat) :
    (l.map some ++ List.replicate m (none : Option K)).getD i none =
      if h : i < l.length then some (l.get ⟨i, h⟩) else none := by
  rw [List.getD_eq_getElem?_getD, List.getElem?_append]
  rcases Nat.lt_or_ge i l.length with hi | hi
  · rw [if_pos (by simpa using hi), dif_pos hi, List.getElem?_map,
      List.getElem?_eq_getElem hi]
    rfl
  · rw [if_neg (by simpa using not_lt.mpr hi), dif_neg (not_lt.mpr hi),
      List.getElem?_replicate]
    split <;> rfl

lemma TsShape_getD_le {now : K} {pat : Patient K} (h : TsShape now pat)
    {i j : Nat} (hij : i ≤ j) {u v : K}
    (hu : (tsList pat).getD i none = some u)
    (hv : (tsList pat).getD j none = some v) : u ≤ v := by
  obtain ⟨l, h1, h2, h3, h4⟩ := h.shape
  rw [h1, getD_pipeline] at hu hv
  rcases Nat.lt_or_ge j l.length with hj | hj
  swap
  · rw [dif_neg (not_lt.mpr hj)] at hv
    exact absurd hv (by simp)
  have hi : i < l.length := lt_of_le_of_lt (by omega : i ≤ j) hj
  rw [dif_pos hi] at hu
  rw [dif_pos hj] at hv
  injection hu with hu
  injection hv with hv
  subst hu
  subst hv
  rcases Nat.lt_or_ge i j with hlt | hge
  · exact List.pairwise_iff_get.mp h3 ⟨i, hi⟩ ⟨j, hj⟩ hlt
  · have hij2 : i = j := by omega
    subst hij2
    exact le_refl _

lemma countP_eq_one_of_nodup {l : List Nat} (hnd : l.Nodup) {q : Nat}
    (hq : q ∈ l) : l.countP (fun a => decide (a = q)) = 1 := by
  induction l with
  | nil => cases hq
  | cons a t ih =>
    rw [List.countP_cons]
    rcases List.mem_cons.mp hq with rfl | hq2
    · have h0 : t.countP (fun x => decide (x = q)) = 0 := by
        rw [List.countP_eq_zero]
        intro x hx
        simp only [decide_eq_true_eq]
        intro hxa
        subst hxa
        exact (List.nodup_cons.mp hnd).1 hx
      rw [h0, if_pos (by simp)]
    · have hne : a ≠ q := by
        intro hc
        subst hc
        exact (List.nodup_cons.mp hnd).1 hq2
      rw [ih (List.nodup_cons.mp hnd).2 hq2, if_neg (by simpa using hne)]

lemma tsList_getD_nine (pat : Patient K) :
    (tsList pat).getD 9 none = pat.timestamps.exit := by
  rw [tsList_def]
  unfold tsListT
  cases pat.is_for_ed <;> rfl

lemma recCount_le_nine {s : SimState K} {pat : Patient K}
    (hloc : LocInv s pat) (hne : pat.pc ≠ PC.done) :
    recCount pat.pc ≤ 9 := by
  unfold LocInv at hloc
  rcases hpc : pat.pc with _ | i | i | _ <;> rw [hpc] at hloc
  · exact Nat.zero_le _
  · have hi : i ≤ 2 := hloc.1
    simp only [recCount]
    omega
  · have hi : i ≤ 2 := hloc.1
    simp only [recCount]
    omega
  · exact absurd hpc hne

/-- C1 (corrected): the queue length sample appended by a pool request
records the length of the wait queue immediately BEFORE that request extends
it (the request itself then makes the queue one element longer), and the
sample appended by a pool release likewise records the queue length before
the call, which a release leaves unchanged.  This corrects the claim that
the sample reflects the post-change queue length, which fails on requests. -/
theorem C1_samples_record_pre_change (now : K) (pid : Nat) (p : PoolState K) :
    ((poolRequest now pid p).stats = p.stats ++ [⟨now, p.queue.length⟩] ∧
      (poolRequest now pid p).queue = p.queue ++ [pid]) ∧
    ((poolRelease now pid p).1.stats = p.stats ++ [⟨now, p.queue.length⟩] ∧
      (poolRelease now pid p).1.queue = p.queue) := by
  refine ⟨⟨rfl, rfl⟩, ?_, ?_⟩
  · unfold poolRelease
    dsimp only
    split <;> rfl
  · unfold poolRelease
    dsimp only
    split <;> rfl

/-- C1 witness: the corrected sampling property instantiated on the busy
pool. -/
theorem C1_witness :
    ((poolRequest (3 : Int) 9 busyPool).stats =
        busyPool.stats ++ [⟨3, busyPool.queue.length⟩] ∧
      (poolRequest (3 : Int) 9 busyPool).queue = busyPool.queue ++ [9]) ∧
    ((poolRelease (3 : Int) 7 busyPool).1.stats =
        busyPool.stats ++ [⟨3, busyPool.queue.length⟩] ∧
      (poolRelease (3 : Int) 7 busyPool).1.queue = busyPool.queue) :=
  C1_samples_record_pre_change 3 9 busyPool |>.imp id
    (fun _ => (C1_samples_record_pre_change 3 7 busyPool).2)

/-- C1 counterexample to the claimed post-change sampling: on a busy pool of
capacity one, a request samples queue length 0 although the queue holds one
waiting request immediately after the call. -/
theorem C1_counterexample :
    (poolRequest (3 : Int) 9 busyPool).stats.map (fun d => d.q_len) = [0] ∧
    (poolRequest (3 : Int) 9 busyPool).queue.length = 1 ∧ (0 : Nat) ≠ 1 := by
  decide

/-- C2 (corrected): in every persisted patient row of a reachable state, the
treatment columns of the branch the patient did not choose are null, so the
two groups are never both populated and a populated group identifies the
chosen branch.  This corrects the claim that exactly one group is always
populated: a patient that never reached its treatment stage before the
horizon has both groups null. -/
theorem C2_exclusive_branch_columns (hnn : StreamNonneg stream)
    (ri fuel rid : Nat) (row : PatientRow K)
    (hrow : row ∈ savePatientRows rid (runSim cfg stream fuel (initSim cfg ri))) :
    (¬(row.ed_entry ≠ none ∧ row.acu_entry ≠ none)) ∧
    (row.is_for_ed = true →
      row.acu_entry = none ∧ row.acu_start = none ∧ row.acu_exit = none) ∧
    (row.is_for_ed = false →
      row.ed_entry = none ∧ row.ed_start = none ∧ row.ed_exit = none) := by
  have hI : Inv cfg (runSim cfg stream fuel (initSim cfg ri)) :=
    runSim_init_inv hnn ri fuel
  unfold savePatientRows at hrow
  obtain ⟨pid, hmem, rfl⟩ := List.mem_map.mp hrow
  have hlen : pid <
      (runSim cfg stream fuel (initSim cfg ri)).allPatients.length :=
    ((hI.retained pid).mp hmem).1
  have ho := (Inv_pat_ts hI pid hlen).other_none
  unfold otherBranch otherBranchT at ho
  rcases hb : (getPatient (runSim cfg stream fuel (initSim cfg ri))
      pid).is_for_ed with _ | _ <;> rw [hb] at ho <;>
    simp only [if_true, if_false, Bool.false_eq_true] at ho
  · refine ⟨?_, ?_, ?_⟩
    · rintro ⟨hed, _⟩
      exact hed (ho _ (by simp [patientRow]))
    · intro hc
      rw [patientRow] at hc
      dsimp only at hc
      rw [hb] at hc
      exact absurd hc (by simp)
    · intro _
      exact ⟨ho _ (by simp [patientRow]), ho _ (by simp [patientRow]),
        ho _ (by simp [patientRow])⟩
  · refine ⟨?_, ?_, ?_⟩
    · rintro ⟨_, hacu⟩
      exact hacu (ho _ (by simp [patientRow]))
    · intro _
      exact ⟨ho _ (by simp [patientRow]), ho _ (by simp [patientRow]),
        ho _ (by simp [patientRow])⟩
    · intro hc
      rw [patientRow] at hc
      dsimp only at hc
      rw [hb] at hc
      exact absurd hc (by simp)

/-- C2 witness: the property instantiated on the concrete truncated run. -/
theorem C2_witness :
    ¬((patientRow 0 (getPatient cFinal 0)).ed_entry ≠ none ∧
      (patientRow 0 (getPatient cFinal 0)).acu_entry ≠ none) :=
  (@C2_exclusive_branch_columns Int _ cCfg cStream cStream_nonneg 0 10 0
    (patientRow 0 (getPatient cFinal 0)) (by decide)).1

/-- C2 counterexample to the claimed "never neither": the concrete truncated
run persists a row of a patient that never reached its treatment stage, with
both treatment column groups entirely null. -/
theorem C2_counterexample :
    ∃ row ∈ savePatientRows 0 cFinal, row.ed_entry = none ∧
      row.ed_start = none ∧ row.ed_exit = none ∧ row.acu_entry = none ∧
      row.acu_start = none ∧ row.acu_exit = none := by
  decide

/-- C3: in every reachable state of a run, every pool holds at most capacity
many concurrent users, and the requests issued so far are exactly the grants
so far followed by the wait queue, in issue order: strict FIFO admission. -/
theorem C3_capacity_and_fifo (hnn : StreamNonneg stream) (ri fuel : Nat)
    (st : Stage) :
    (getPool (runSim cfg stream fuel (initSim cfg ri)) st).users.length ≤
      (getPool (runSim cfg stream fuel (initSim cfg ri)) st).capacity ∧
    (getPool (runSim cfg stream fuel (initSim cfg ri)) st).reqLog =
      (getPool (runSim cfg stream fuel (initSim cfg ri)) st).grantLog ++
        (getPool (runSim cfg stream fuel (initSim cfg ri)) st).queue := by
  have hI : Inv cfg (runSim cfg stream fuel (initSim cfg ri)) :=
    runSim_init_inv hnn ri fuel
  exact ⟨(hI.pools st).users_le, (hI.pools st).fifo⟩

/-- C3 witness: the property instantiated on the concrete truncated run. -/
theorem C3_witness :
    (getPool cFinal Stage.registration).users.length ≤
      (getPool cFinal Stage.registration).capacity ∧
    (getPool cFinal Stage.registration).reqLog =
      (getPool cFinal Stage.registration).grantLog ++
        (getPool cFinal Stage.registration).queue :=
  C3_capacity_and_fifo cStream_nonneg 0 10 Stage.registration

/-- C4: for every patient of a reachable state, any two recorded timestamps
of the pipeline registration, triage, chosen treatment, exit are
nondecreasing along the pipeline order. -/
theorem C4_timestamp_chain (hnn : StreamNonneg stream) (ri fuel pid : Nat)
    (hpid : pid <
      (runSim cfg stream fuel (initSim cfg ri)).allPatients.length)
    (i j : Nat) (hij : i ≤ j) (u v : K)
    (hu : (tsList (getPatient (runSim cfg stream fuel (initSim cfg ri))
      pid)).getD i none = some u)
    (hv : (tsList (getPatient (runSim cfg stream fuel (initSim cfg ri))
      pid)).getD j none = some v) : u ≤ v :=
  TsShape_getD_le (Inv_pat_ts (runSim_init_inv hnn ri fuel) pid hpid)
    hij hu hv

/-- C4 witness: the property instantiated on the concrete truncated run. -/
theorem C4_witness :
    (tsList (getPatient cFinal 0)).getD 0 none = some (0 : Int) ∧
    (tsList (getPatient cFinal 0)).getD 1 none = some (0 : Int) ∧
    (0 : Int) ≤ 0 :=
  ⟨by decide, by decide,
    @C4_timestamp_chain Int _ cCfg cStream cStream_nonneg 0 10 0 (by decide)
      0 1 (by decide) 0 0 (by decide) (by decide)⟩

/-- C5: a patient appears in the persisted patient list of a reachable state
exactly when it was created at or after the warm up boundary, while the
queue length sampling of a request is unconditional (a sample is appended on
every request, also for patients the warm up filter later drops). -/
theorem C5_warm_up_retention (hnn : StreamNonneg stream) (ri fuel q : Nat) :
    (q ∈ (runSim cfg stream fuel (initSim cfg ri)).patients ↔
      (q < (runSim cfg stream fuel (initSim cfg ri)).allPatients.length ∧
        cfg.warm_up_time ≤
          (getPatient (runSim cfg stream fuel (initSim cfg ri))
            q).createdAt)) ∧
    ∀ (now : K) (pid : Nat) (p : PoolState K),
      (poolRequest now pid p).stats = p.stats ++ [⟨now, p.queue.length⟩] := by
  have hI : Inv cfg (runSim cfg stream fuel (initSim cfg ri)) :=
    runSim_init_inv hnn ri fuel
  exact ⟨hI.retained q, fun _ _ _ => rfl⟩

/-- C5 witness: in the concrete warm up run the patient created at time 0,
inside the warm up window of 6, is simulated (it exists in the heap and its
request left a sample at time 0) but is not retained; the patient created at
time 7 is retained. -/
theorem C5_witness :
    (0 ∈ wFinal.patients ↔ (0 < wFinal.allPatients.length ∧
      (6 : Int) ≤ (getPatient wFinal 0).createdAt)) ∧
    (1 ∈ wFinal.patients ↔ (1 < wFinal.allPatients.length ∧
      (6 : Int) ≤ (getPatient wFinal 1).createdAt)) ∧
    (0 ∉ wFinal.patients) ∧ (1 ∈ wFinal.patients) ∧
    (⟨0, 0⟩ : DataPoint Int) ∈ (getPool wFinal Stage.registration).stats :=
  ⟨(@C5_warm_up_retention Int _ wCfg wStream wStream_nonneg 0 16 0).1,
   (@C5_warm_up_retention Int _ wCfg wStream wStream_nonneg 0 16 1).1,
   by decide, by decide, by decide⟩

/-- C6: the run is a pure function of the configuration and the random
stream: two replicated driver runs with equal configuration, equal stream
and equal step budget produce equal patient tables and equal queue sample
tables, rows and order included. -/
theorem C6_determinism {cfg1 cfg2 : SimulationConfig K} {s1 s2 : Nat → K}
    {fuel1 fuel2 : Nat} (hc : cfg1 = cfg2) (hs : s1 = s2)
    (hf : fuel1 = fuel2) :
    (driverRun cfg1 s1 fuel1).patientTable =
      (driverRun cfg2 s2 fuel2).patientTable ∧
    (driverRun cfg1 s1 fuel1).queueTable =
      (driverRun cfg2 s2 fuel2).queueTable := by
  subst hc
  subst hs
  subst hf
  exact ⟨rfl, rfl⟩

/-- C6 witness: the property instantiated on the concrete configuration. -/
theorem C6_witness :
    (driverRun cCfg cStream 10).patientTable =
      (driverRun cCfg cStream 10).patientTable ∧
    (driverRun cCfg cStream 10).queueTable =
      (driverRun cCfg cStream 10).queueTable :=
  C6_determinism rfl rfl rfl

/-- C7: every replication of the driver builds its simulation from fresh
state: clock 0, no events beyond the generator start, empty pools of the
configured capacities, no patients and patient ids starting at 0; the rows a
replication appends carry its own run id and patient ids bounded by the
number of patients that replication created itself. -/
theorem C7_replication_freshness (hnn : StreamNonneg stream)
    (fuel rid : Nat) (d : DriverState K) :
    (initSim cfg d.rndIdx).now = 0 ∧
    (initSim cfg d.rndIdx).patients = [] ∧
    (initSim cfg d.rndIdx).allPatients = [] ∧
    (initSim cfg d.rndIdx).nextPid = 0 ∧
    (∀ st, getPool (initSim cfg d.rndIdx) st =
      initPool (capacityFor cfg st)) ∧
    (runOnce cfg stream fuel rid d).patientTable = d.patientTable ++
      savePatientRows rid
        (runSim cfg stream fuel (initSim cfg d.rndIdx)) ∧
    ∀ row ∈ savePatientRows rid
        (runSim cfg stream fuel (initSim cfg d.rndIdx)),
      row.run_id = rid ∧ row.patient_id <
        (runSim cfg stream fuel (initSim cfg d.rndIdx)).allPatients.length := by
  have hI : Inv cfg (runSim cfg stream fuel (initSim cfg d.rndIdx)) :=
    runSim_init_inv hnn d.rndIdx fuel
  refine ⟨rfl, rfl, rfl, rfl, fun st => rfl, rfl, ?_⟩
  intro row hrow
  unfold savePatientRows at hrow
  obtain ⟨pid, hmem, rfl⟩ := List.mem_map.mp hrow
  have h1 := ((hI.retained pid).mp hmem).1
  refine ⟨rfl, ?_⟩
  have h2 := hI.heap_id pid h1
  show (getPatient (runSim cfg stream fuel (initSim cfg d.rndIdx)) pid).id <
    (runSim cfg stream fuel (initSim cfg d.rndIdx)).allPatients.length
  rw [h2]
  exact h1

/-- C7 witness: the property instantiated on the concrete configuration with
the empty driver state. -/
theorem C7_witness :
    (initSim cCfg (0 : Nat)).now = 0 ∧
    (initSim cCfg (0 : Nat)).patients = [] ∧
    (initSim cCfg (0 : Nat)).allPatients = [] ∧
    (initSim cCfg (0 : Nat)).nextPid = 0 ∧
    getPool (initSim cCfg (0 : Nat)) Stage.registration =
      initPool (capacityFor cCfg Stage.registration) ∧
    (runOnce cCfg cStream 10 0 ⟨[], [], 0⟩).patientTable = [] ++
      savePatientRows 0 (runSim cCfg cStream 10 (initSim cCfg 0)) ∧
    (patientRow 0 (getPatient cFinal 0)).run_id = 0 ∧
    (patientRow 0 (getPatient cFinal 0)).patient_id <
      cFinal.allPatients.length :=
  ⟨(C7_replication_freshness cStream_nonneg 10 0 ⟨[], [], 0⟩).1,
   (C7_replication_freshness cStream_nonneg 10 0 ⟨[], [], 0⟩).2.1,
   (C7_replication_freshness cStream_nonneg 10 0 ⟨[], [], 0⟩).2.2.1,
   (C7_replication_freshness cStream_nonneg 10 0 ⟨[], [], 0⟩).2.2.2.1,
   (C7_replication_freshness cStream_nonneg 10 0 ⟨[], [], 0⟩).2.2.2.2.1
     Stage.registration,
   (C7_replication_freshness cStream_nonneg 10 0 ⟨[], [], 0⟩).2.2.2.2.2.1,
   (C7_replication_freshness cStream_nonneg 10 0 ⟨[], [], 0⟩).2.2.2.2.2.2
     (patientRow 0 (getPatient cFinal 0)) (by decide)⟩

/-- C8: in every reachable state the two fatal condition flags of the model
are clear: no event was ever scheduled with a negative delay, and no release
ever removed a request that was not an admitted user; moreover every grant
is accounted for as either a current user or a recorded release. -/
theorem C8_no_fatal_branches (hnn : StreamNonneg stream) (ri fuel : Nat) :
    (runSim cfg stream fuel (initSim cfg ri)).negDelay = false ∧
    (runSim cfg stream fuel (initSim cfg ri)).badRelease = false ∧
    ∀ st, ((getPool (runSim cfg stream fuel (initSim cfg ri))
        st).grantLog).Perm
      ((getPool (runSim cfg stream fuel (initSim cfg ri)) st).users ++
        (getPool (runSim cfg stream fuel (initSim cfg ri))
          st).releaseLog) := by
  have hI : Inv cfg (runSim cfg stream fuel (initSim cfg ri)) :=
    runSim_init_inv hnn ri fuel
  exact ⟨hI.no_neg, hI.no_bad, fun st => (hI.pools st).pairing⟩

/-- C8 witness: the property instantiated on the concrete truncated run. -/
theorem C8_witness :
    cFinal.negDelay = false ∧ cFinal.badRelease = false ∧
    ((getPool cFinal Stage.registration).grantLog).Perm
      ((getPool cFinal Stage.registration).users ++
        (getPool cFinal Stage.registration).releaseLog) :=
  ⟨(C8_no_fatal_branches cStream_nonneg 0 10).1,
   (C8_no_fatal_branches cStream_nonneg 0 10).2.1,
   (C8_no_fatal_branches cStream_nonneg 0 10).2.2 Stage.registration⟩

/-- C9: save_patient_stats is total on the retained patients of a reachable
state: it emits one row per retained patient (exactly one row carries each
retained patient id), and a patient whose process had not finished at the
horizon still gets its row, with the final exit column null. -/
theorem C9_one_row_per_patient (hnn : StreamNonneg stream)
    (ri fuel rid : Nat) :
    (savePatientRows rid (runSim cfg stream fuel (initSim cfg ri))).length =
      (runSim cfg stream fuel (initSim cfg ri)).patients.length ∧
    ∀ q ∈ (runSim cfg stream fuel (initSim cfg ri)).patients,
      ((savePatientRows rid
          (runSim cfg stream fuel (initSim cfg ri))).countP
        (fun r => decide (r.patient_id = q)) = 1) ∧
      ((getPatient (runSim cfg stream fuel (initSim cfg ri)) q).pc ≠
          PC.done →
        (patientRow rid (getPatient (runSim cfg stream fuel (initSim cfg ri))
          q)).exit = none) := by
  have hI : Inv cfg (runSim cfg stream fuel (initSim cfg ri)) :=
    runSim_init_inv hnn ri fuel
  refine ⟨List.length_map _ _, ?_⟩
  intro q hq
  have hqlen : q < (runSim cfg stream fuel (initSim cfg ri)).allPatients.length := ((hI.retained q).mp hq).1
  constructor
  · unfold savePatientRows
    rw [List.countP_map]
    have hcg : ∀ a ∈ (runSim cfg stream fuel (initSim cfg ri)).patients,
        (((fun r : PatientRow K => decide (r.patient_id = q)) ∘
          (fun pid => patientRow rid
            (getPatient (runSim cfg stream fuel (initSim cfg ri)) pid))) a
          = true) ↔
        ((fun a => decide (a = q)) a = true) := by
      intro a ha
      have halen : a < (runSim cfg stream fuel (initSim cfg ri)).allPatients.length := ((hI.retained a).mp ha).1
      have hid := hI.heap_id a halen
      simp only [Function.comp_apply, patientRow, decide_eq_true_eq]
      rw [hid]
    rw [List.countP_congr hcg]
    exact countP_eq_one_of_nodup hI.pat_nodup hq
  · intro hne
    have hloc := Inv_pat_loc hI q hqlen
    have hn := recCount_le_nine hloc hne
    have hts := Inv_pat_ts hI q hqlen
    obtain ⟨l, h1, h2, h3, h4⟩ := hts.shape
    have h9 : (tsList (getPatient (runSim cfg stream fuel (initSim cfg ri))
        q)).getD 9 none = none := by
      rw [h1, getD_pipeline, dif_neg (show ¬ 9 < l.length by omega)]
    rw [tsList_getD_nine] at h9
    exact h9

/-- C9 witness: the property instantiated on the concrete truncated run. -/
theorem C9_witness :
    (savePatientRows 0 cFinal).length = cFinal.patients.length ∧
    (savePatientRows 0 cFinal).countP
      (fun r => decide (r.patient_id = 0)) = 1 :=
  ⟨(C9_one_row_per_patient cStream_nonneg 0 10 0).1,
   ((C9_one_row_per_patient cStream_nonneg 0 10 0).2 0 (by decide)).1⟩

/-- C10: in every reachable state, every pool has its recorded sample
sequence nondecreasing in timestamp, every sample being stamped with the
clock at its request or release, never later than the current clock. -/
theorem C10_sample_timestamps_monotone (hnn : StreamNonneg stream)
    (ri fuel : Nat) (st : Stage) :
    ((getPool (runSim cfg stream fuel (initSim cfg ri)) st).stats).Pairwise
      (fun a b => a.timestamp ≤ b.timestamp) ∧
    ∀ d ∈ (getPool (runSim cfg stream fuel (initSim cfg ri)) st).stats,
      d.timestamp ≤ (runSim cfg stream fuel (initSim cfg ri)).now := by
  have hI : Inv cfg (runSim cfg stream fuel (initSim cfg ri)) :=
    runSim_init_inv hnn ri fuel
  exact ⟨(hI.pools st).stats_sorted, (hI.pools st).stats_le⟩

/-- C10 witness: the property instantiated on the concrete warm up run. -/
theorem C10_witness :
    ((getPool wFinal Stage.registration).stats).Pairwise
      (fun a b => a.timestamp ≤ b.timestamp) ∧
    (⟨0, 0⟩ : DataPoint Int).timestamp ≤ wFinal.now :=
  ⟨(C10_sample_timestamps_monotone wStream_nonneg 0 16 Stage.registration).1,
   (C10_sample_timestamps_monotone wStream_nonneg 0 16 Stage.registration).2
     ⟨0, 0⟩ (by decide)⟩

end Proofs

end SurgerySim
